import Mathlib

/-!
# DataTable: selection, expansion and filter state

A shallow embedding of the state handlers of
`src/components/DataTable/DataTable.js`.

* A JavaScript object used as a dictionary (`rowsById`, `cellsById`) is a
  function `String → Option α` giving its own entries: the component only ever
  reads such an object by key. A read of `rowsById` goes through `readEntry`,
  which also answers for the names a plain object inherits from
  `Object.prototype`.
* Reading a property of `undefined` throws a `TypeError`; handlers that can
  do so return `Except JSError _`.
* `this.setState(updater)` is the shallow merge of the partial state the
  updater returns into the previous state (`setState`).
-/

namespace DataTable

/-! ## Values and records -/

/-- The JavaScript values a free-form field can hold. -/
inductive JSValue where
  | undefined
  | null
  | bool (b : Bool)
  | number (n : Int)
  | string (s : String)
  deriving DecidableEq, Repr

/-- The test `typeof v === 'string'`. -/
def JSValue.isString : JSValue → Bool
  | .string _ => true
  | _ => false

/-- The only error these handlers can raise: a property read on `undefined`. -/
inductive JSError where
  | typeError
  deriving DecidableEq, Repr

/-- Sort direction of the active header. -/
inductive SortDirection where
  | NONE
  | ASC
  | DESC
  deriving DecidableEq, Repr

/-- A row entry of `rowsById`. A field is `none` when the object has no such
property (reading it gives `undefined`): the object spread of a missing entry
in `setAllSelectedState` produces an object that has `isSelected` only. -/
structure RowMeta where
  id : Option String
  isSelected : Option Bool
  isExpanded : Option Bool
  deriving DecidableEq, Repr

/-- Modelled from the spec: the cell record built by the normalizer
(`state/getDerivedStateFromProps`, absent from the sources); the handlers
embedded here only pass `cellsById` along. -/
structure CellMeta where
  id : String
  value : JSValue
  isEditable : Option Bool
  info : Option String
  deriving DecidableEq, Repr

/-- A column descriptor of the `headers` prop. -/
structure Header where
  key : String
  header : String
  deriving DecidableEq, Repr

/-- JavaScript truthiness of a boolean-or-absent property. -/
def truthy : Option Bool → Bool
  | some b => b
  | none => false

/-- Text of a string-or-absent property inside a template literal. -/
def templateText : Option String → String
  | some s => s
  | none => "undefined"

/-- A JavaScript object used as a dictionary keyed by strings. -/
abbrev Obj (α : Type) := String → Option α

/-- The object literal with no key. -/
def Obj.empty {α : Type} : Obj α := fun _ => none

/-- The object `{...o, [k]: v}`. -/
def Obj.set {α : Type} (o : Obj α) (k : String) (v : α) : Obj α :=
  fun k' => if k' = k then some v else o k'

/-- The object spread `{...row}` of a possibly missing entry: spreading
`undefined`, or a member inherited from `Object.prototype`, which has no own
enumerable property, gives an object with no property. -/
def spreadRow : Option RowMeta → RowMeta
  | some row => row
  | none => { id := none, isSelected := none, isExpanded := none }

/-- The names of the members a plain object inherits from `Object.prototype`. -/
def objectPrototypeKeys : List String :=
  ["constructor", "hasOwnProperty", "isPrototypeOf", "propertyIsEnumerable",
   "toLocaleString", "toString", "valueOf", "__proto__", "__defineGetter__",
   "__defineSetter__", "__lookupGetter__", "__lookupSetter__"]

/-- The property read `rowsById[k]`, as far as the handlers look at its value:
the own entry when there is one; under a name inherited from
`Object.prototype` a function or object with none of the three properties, so
that reading `isSelected` or `isExpanded` off it gives `undefined` and
spreading it adds nothing; `none` when the read gives `undefined`. The objects
read are plain ones, built by the object literals of lines 269-278, 331
and 352. -/
def readEntry (rowsById : Obj RowMeta) (k : String) : Option RowMeta :=
  match rowsById k with
  | some row => some row
  | none => if k ∈ objectPrototypeKeys then some (spreadRow none) else none

/-! ## Component state -/

/-- The component state: the keys `DataTable.js` reads (lines 143, 232, 387)
and writes. It is built by `state/getDerivedStateFromProps`, which is absent
from the sources, so the theorems quantify over every value of this type. -/
structure State where
  rowIds : List String
  rowsById : Obj RowMeta
  cellsById : Obj CellMeta
  sortHeaderKey : Option String
  sortDirection : SortDirection
  filterInputValue : JSValue
  shouldShowBatchActions : Bool

/-- A partial state, as handed to `this.setState`: a field is `none` when the
object literal does not mention the key. -/
structure StateUpdate where
  rowIds : Option (List String)
  rowsById : Option (Obj RowMeta)
  cellsById : Option (Obj CellMeta)
  sortHeaderKey : Option (Option String)
  sortDirection : Option SortDirection
  filterInputValue : Option JSValue
  shouldShowBatchActions : Option Bool

/-- The object literal with no key, as a partial state. -/
def StateUpdate.empty : StateUpdate :=
  { rowIds := none, rowsById := none, cellsById := none, sortHeaderKey := none,
    sortDirection := none, filterInputValue := none, shouldShowBatchActions := none }

/-- The object `{...a, ...b}` of two partial states: keys of `b` win. -/
def StateUpdate.merge (a b : StateUpdate) : StateUpdate :=
  { rowIds := b.rowIds <|> a.rowIds
    rowsById := b.rowsById <|> a.rowsById
    cellsById := b.cellsById <|> a.cellsById
    sortHeaderKey := b.sortHeaderKey <|> a.sortHeaderKey
    sortDirection := b.sortDirection <|> a.sortDirection
    filterInputValue := b.filterInputValue <|> a.filterInputValue
    shouldShowBatchActions := b.shouldShowBatchActions <|> a.shouldShowBatchActions }

/-- React's `setState`: the partial state is merged shallowly into the previous
state; keys it does not mention keep their value. -/
def setState (state : State) (u : StateUpdate) : State :=
  { rowIds := u.rowIds.getD state.rowIds
    rowsById := u.rowsById.getD state.rowsById
    cellsById := u.cellsById.getD state.cellsById
    sortHeaderKey := u.sortHeaderKey.getD state.sortHeaderKey
    sortDirection := u.sortDirection.getD state.sortDirection
    filterInputValue := u.filterInputValue.getD state.filterInputValue
    shouldShowBatchActions := u.shouldShowBatchActions.getD state.shouldShowBatchActions }

/-- `Array.prototype.filter` with a callback that may throw: the first
exception, in element order, aborts the call. -/
def filterE {α : Type} (p : α → Except JSError Bool) : List α → Except JSError (List α)
  | [] => .ok []
  | a :: rest =>
    match p a with
    | .error e => .error e
    | .ok keep =>
      match filterE p rest with
      | .error e => .error e
      | .ok tail => .ok (if keep then a :: tail else tail)

/-- The callback `id => state.rowsById[id].isSelected` (lines 247-250 and
318-320): it throws when the read of `id` gives `undefined`. -/
def readIsSelected (rowsById : Obj RowMeta) (id : String) : Except JSError Bool :=
  match readEntry rowsById id with
  | none => .error .typeError
  | some row => .ok (truthy row.isSelected)

/-! ## Selection helpers and handlers -/

/-- `getSelectedRows` (lines 246-250): the row ids whose entry is selected. -/
def getSelectedRows (state : State) : Except JSError (List String) :=
  filterE (readIsSelected state.rowsById) state.rowIds

/-- `setAllSelectedState` (lines 266-280): rebuilds `rowsById` from `rowIds`,
every entry spread and given the flag `isSelected`. -/
def setAllSelectedState (initialState : State) (isSelected : Bool) : StateUpdate :=
  { StateUpdate.empty with
    rowsById := some (initialState.rowIds.foldl
      (fun acc id =>
        Obj.set acc id { spreadRow (initialState.rowsById id) with isSelected := some isSelected })
      Obj.empty) }

/-- The updater of `handleOnCancel` (lines 287-292). -/
def handleOnCancelUpdater (state : State) : StateUpdate :=
  StateUpdate.merge
    { StateUpdate.empty with shouldShowBatchActions := some false }
    (setAllSelectedState state false)

/-- `handleOnCancel` (lines 286-293). -/
def handleOnCancel (state : State) : State :=
  setState state (handleOnCancelUpdater state)

/-- The updater of `handleSelectAll` (lines 299-306). It reads the selected rows
through `this.getSelectedRows()`, that is from the component's committed state
`thisState`, and rebuilds the rows of the state `state` it is handed. -/
def handleSelectAllUpdater (thisState state : State) : Except JSError StateUpdate :=
  match getSelectedRows thisState with
  | .error e => .error e
  | .ok selected =>
    let isSelected : Bool := decide ((selected.length : Int) ≠ (state.rowIds.length : Int))
    .ok (StateUpdate.merge
      { StateUpdate.empty with shouldShowBatchActions := some isSelected }
      (setAllSelectedState state isSelected))

/-- `handleSelectAll` (lines 298-307) as a transition of a component with no
pending update: the committed state is the state handed to the updater. -/
def handleSelectAll (state : State) : Except JSError State :=
  match handleSelectAllUpdater state state with
  | .error e => .error e
  | .ok u => .ok (setState state u)

/-- The updater of `handleOnSelectRow(rowId)` (lines 316-339). -/
def handleOnSelectRowUpdater (rowId : String) (state : State) : Except JSError StateUpdate :=
  let row := readEntry state.rowsById rowId
  match filterE (readIsSelected state.rowsById) state.rowIds with
  | .error e => .error e
  | .ok selected =>
    let selectedRows : Int := selected.length
    match row with
    | none => .error .typeError
    | some row =>
      let selectedRowsCount : Int :=
        if !truthy row.isSelected then selectedRows + 1 else selectedRows - 1
      .ok { StateUpdate.empty with
            shouldShowBatchActions := some (!truthy row.isSelected || decide (selectedRowsCount > 0))
            rowsById := some (Obj.set state.rowsById rowId
              { row with isSelected := some (!truthy row.isSelected) }) }

/-- `handleOnSelectRow(rowId)()` (lines 315-340). -/
def handleOnSelectRow (rowId : String) (state : State) : Except JSError State :=
  match handleOnSelectRowUpdater rowId state with
  | .error e => .error e
  | .ok u => .ok (setState state u)

/-- The updater of `handleOnExpandRow(rowId)` (lines 349-360). -/
def handleOnExpandRowUpdater (rowId : String) (state : State) : Except JSError StateUpdate :=
  match readEntry state.rowsById rowId with
  | none => .error .typeError
  | some row =>
    .ok { StateUpdate.empty with
          rowsById := some (Obj.set state.rowsById rowId
            { row with isExpanded := some (!truthy row.isExpanded) }) }

/-- `handleOnExpandRow(rowId)()` (lines 348-361). -/
def handleOnExpandRow (rowId : String) (state : State) : Except JSError State :=
  match handleOnExpandRowUpdater rowId state with
  | .error e => .error e
  | .ok u => .ok (setState state u)

/-- `handleOnInputValueChange` (lines 381-383); `value` is `event.target.value`. -/
def handleOnInputValueChange (value : JSValue) (state : State) : State :=
  setState state { StateUpdate.empty with filterInputValue := some value }

/-! ## Props, labels and the selection accessor -/

/-- The argument object of the `filterRows` prop (lines 390-395). -/
structure FilterArgs where
  rowIds : List String
  headers : List Header
  cellsById : Obj CellMeta
  inputValue : String

/-- The props the embedded code reads. -/
structure Props where
  headers : List Header
  filterRows : FilterArgs → List String
  translateWithId : String → Option String

/-- `translationKeys.selectAll` (line 17). -/
def translationKeys.selectAll : String := "carbon.table.all.select"

/-- `translationKeys.unselectAll` (line 18). -/
def translationKeys.unselectAll : String := "carbon.table.all.unselect"

/-- `translationKeys.selectRow` (line 19). -/
def translationKeys.selectRow : String := "carbon.table.row.select"

/-- `translationKeys.unselectRow` (line 20). -/
def translationKeys.unselectRow : String := "carbon.table.row.unselect"

/-- `getTablePrefix` (line 258); `instanceId` is the text of `this.instanceId`. -/
def getTablePrefix (instanceId : String) : String :=
  "data-table-" ++ instanceId

/-- The keys `getSelectionProps` itself writes in the object it returns, the
event handler apart; `indeterminate` is absent when a row is given. -/
structure SelectionProps where
  ariaLabel : Option String
  checked : Option Bool
  id : String
  indeterminate : Option Bool
  name : String
  deriving DecidableEq, Repr

/-- `getSelectionProps` (lines 188-229), `row` being the optional row of its
argument. -/
def getSelectionProps (props : Props) (instanceId : String) (state : State)
    (row : Option RowMeta) : Except JSError SelectionProps :=
  let t := props.translateWithId
  match row with
  | some row =>
    let translationKey :=
      if truthy row.isSelected then translationKeys.unselectRow else translationKeys.selectRow
    .ok { ariaLabel := t translationKey
          checked := row.isSelected
          id := getTablePrefix instanceId ++ "__select-row-" ++ templateText row.id
          indeterminate := none
          name := "select-row-" ++ templateText row.id }
  | none =>
    let rowCount : Int := state.rowIds.length
    match getSelectedRows state with
    | .error e => .error e
    | .ok selected =>
      let selectedRowCount : Int := selected.length
      let checked : Bool := decide (rowCount > 0) && decide (selectedRowCount = rowCount)
      let indeterminate : Bool :=
        decide (rowCount > 0) && decide (selectedRowCount > 0) && decide (selectedRowCount ≠ rowCount)
      let translationKey :=
        if checked then translationKeys.unselectAll else translationKeys.selectAll
      .ok { ariaLabel := t translationKey
            checked := some checked
            id := getTablePrefix instanceId ++ "__select-all"
            indeterminate := some indeterminate
            name := "select-all" }

/-- The `filteredRowIds` of `render` (lines 388-396): the list handed to
`denormalize` for the `rows` output. -/
def filteredRowIds (props : Props) (state : State) : List String :=
  match state.filterInputValue with
  | .string inputValue =>
    props.filterRows
      { rowIds := state.rowIds
        headers := props.headers
        cellsById := state.cellsById
        inputValue := inputValue }
  | _ => state.rowIds

/-! ## Vocabulary of the statements -/

/-- Whether the entry of `id` exists and is selected. -/
def isSelectedIn (rowsById : Obj RowMeta) (id : String) : Bool :=
  match rowsById id with
  | some row => truthy row.isSelected
  | none => false

/-- The number of selected rows, counted over `rowIds`. -/
def selectedCount (state : State) : Nat :=
  (state.rowIds.filter (isSelectedIn state.rowsById)).length

/-- Data-model invariant: every identifier of `rowIds` has a `RowMeta`. -/
def HasAllRows (state : State) : Prop :=
  ∀ id ∈ state.rowIds, (state.rowsById id).isSome = true

instance (state : State) : Decidable (HasAllRows state) := by
  unfold HasAllRows; infer_instance

/-- The fields no selection handler may touch are the same in both states. -/
def SameView (s s' : State) : Prop :=
  s'.rowIds = s.rowIds ∧ s'.cellsById = s.cellsById ∧ s'.sortHeaderKey = s.sortHeaderKey ∧
    s'.sortDirection = s.sortDirection ∧ s'.filterInputValue = s.filterInputValue

/-- The keys a selection updater writes: `rowsById` and
`shouldShowBatchActions` only. -/
def TouchesOnlySelection (u : StateUpdate) : Prop :=
  u.rowIds = none ∧ u.cellsById = none ∧ u.sortHeaderKey = none ∧
    u.sortDirection = none ∧ u.filterInputValue = none

/-- A row entry with all three properties present. -/
def mkRow (id : String) (isSelected isExpanded : Bool) : RowMeta :=
  { id := some id, isSelected := some isSelected, isExpanded := some isExpanded }

/-- A three-row table `a`, `b`, `c` with the given selection flags, unsorted
and unfiltered. -/
def sampleState (a b c : Bool) (shown : Bool) : State :=
  { rowIds := ["a", "b", "c"]
    rowsById := Obj.set (Obj.set (Obj.set Obj.empty "a" (mkRow "a" a false))
      "b" (mkRow "b" b false)) "c" (mkRow "c" c true)
    cellsById := Obj.empty
    sortHeaderKey := none
    sortDirection := .NONE
    filterInputValue := .undefined
    shouldShowBatchActions := shown }

/-- Props with a filter that drops every row and no translation. -/
def sampleProps : Props :=
  { headers := [{ key := "text", header := "Text" }]
    filterRows := fun _ => []
    translateWithId := fun _ => none }

/-! ## Events and the batch-actions invariant -/

/-- The batch-actions flag agrees with the selection: it is true exactly when
some row of `rowIds` is selected. -/
def BatchActionsMatch (s : State) : Prop :=
  s.shouldShowBatchActions = true ↔ ∃ id ∈ s.rowIds, isSelectedIn s.rowsById id = true

instance (s : State) : Decidable (BatchActionsMatch s) := by
  unfold BatchActionsMatch; infer_instance

/-- The user events whose handlers are embedded above. -/
inductive Event where
  | selectAll
  | cancel
  | selectRow (rowId : String)
  | expandRow (rowId : String)
  | inputValueChange (value : JSValue)
  deriving DecidableEq, Repr

/-- The transition each event triggers. -/
def step (e : Event) (s : State) : Except JSError State :=
  match e with
  | .selectAll => handleSelectAll s
  | .cancel => .ok (handleOnCancel s)
  | .selectRow rowId => handleOnSelectRow rowId s
  | .expandRow rowId => handleOnExpandRow rowId s
  | .inputValueChange value => .ok (handleOnInputValueChange value s)

/-- The events of a list handled one after the other. -/
def run : List Event → State → Except JSError State
  | [], s => .ok s
  | e :: rest, s =>
    match step e s with
    | .error err => .error err
    | .ok s' => run rest s'

/-- A row-selection event is aimed at an identifier that occurs exactly once
in `rowIds`; the other events carry no condition. -/
def Event.AimedAt (rowIds : List String) : Event → Prop
  | .selectRow rowId => rowIds.count rowId = 1
  | _ => True

instance (rowIds : List String) (e : Event) : Decidable (e.AimedAt rowIds) := by
  cases e <;> (unfold Event.AimedAt; infer_instance)

/-! ## External updates of rows and headers -/

/-- A row of the `rows` prop: its required `id` and its other fields. -/
structure Row where
  id : String
  fields : List (String × JSValue)
  deriving DecidableEq, Repr

/-- The props object as `UNSAFE_componentWillReceiveProps` sees it: the props
read elsewhere, and `rows`. -/
structure TableProps extends Props where
  rows : List Row

/-- One call `this.setState(state => getDerivedStateFromProps(nextProps, state))`,
recorded by the props it closes over. -/
structure DerivedStateCall where
  nextProps : TableProps

/-- `UNSAFE_componentWillReceiveProps` (lines 110-131): the `setState` calls it
issues, in order. `isEqual` is lodash's deep equality on the two `rows` arrays;
on two arrays of strings deep equality is equality of the lists. -/
def UNSAFE_componentWillReceiveProps (isEqual : List Row → List Row → Bool)
    (thisProps nextProps : TableProps) : List DerivedStateCall :=
  let rowIds : List String := thisProps.rows.map (fun row => row.id)
  let nextRowIds : List String := nextProps.rows.map (fun row => row.id)
  if rowIds ≠ nextRowIds then
    [{ nextProps := nextProps }]
  else
    let headers : List String := thisProps.headers.map (fun header => header.key)
    let nextHeaders : List String := nextProps.headers.map (fun header => header.key)
    if headers ≠ nextHeaders then
      [{ nextProps := nextProps }]
    else if !isEqual thisProps.rows nextProps.rows then
      [{ nextProps := nextProps }]
    else
      []

/-- The state once the recorded calls are processed; `derive` stands for
`getDerivedStateFromProps`, which is absent from the sources. -/
def applyDerivedStateCalls (derive : TableProps → State → State)
    (calls : List DerivedStateCall) (state : State) : State :=
  calls.foldl (fun st call => derive call.nextProps st) state

/-- The update is one `UNSAFE_componentWillReceiveProps` detects: the ordered
row identifiers differ, or the ordered header keys differ, or the rows are not
deeply equal. -/
def DetectableChange (isEqual : List Row → List Row → Bool)
    (thisProps nextProps : TableProps) : Prop :=
  thisProps.rows.map (fun row => row.id) ≠ nextProps.rows.map (fun row => row.id) ∨
  thisProps.headers.map (fun header => header.key)
    ≠ nextProps.headers.map (fun header => header.key) ∨
  isEqual thisProps.rows nextProps.rows = false

/-! ## Event handlers in props -/

/-- A handler supplied by the consumer; `cancels` tells whether running it
signals cancellation. -/
structure CallerHandler where
  name : String
  cancels : Bool
  deriving DecidableEq, Repr

/-- A function held in a props object: a bound handler of the component or a
handler of the consumer. -/
inductive Fn where
  | handleSortBy (headerKey : String)
  | handleOnExpandRow (rowId : String)
  | handleOnSelectRow (rowId : String)
  | handleSelectAll
  | handleOnCancel
  | caller (h : CallerHandler)
  deriving DecidableEq, Repr

/-- Whether running the function signals cancellation: the bound handlers take
no event and never do. -/
def Fn.signalsCancellation : Fn → Bool
  | .caller h => h.cancels
  | _ => false

/-- The value of a handler key: a function as it is, or the result of
`composeEventHandlers`. -/
inductive Handler where
  | single (f : Fn)
  | composed (fns : List (Option Fn))
  deriving DecidableEq, Repr

/-- Modelled from the spec: `composeEventHandlers` of `tools/events`, absent
from the sources. It keeps the ordered list of handlers it is given; an entry
is `none` when the consumer supplied no handler. -/
def composeEventHandlers (fns : List (Option Fn)) : Handler :=
  .composed fns

/-- Modelled from the spec: the handlers of a composition are invoked in
sequence, each independently; an absent one is skipped, and the sequence stops
only after a handler that signals cancellation. The result lists the
functions that ran, in order. -/
def runHandlers : List (Option Fn) → List Fn
  | [] => []
  | none :: rest => runHandlers rest
  | some f :: rest => if f.signalsCancellation then [f] else f :: runHandlers rest

/-- The functions that run, in order, when the handler is invoked. -/
def Handler.invoke : Handler → List Fn
  | .single f => [f]
  | .composed fns => runHandlers fns

/-- A value of a props object. -/
inductive PropValue where
  | value (v : JSValue)
  | direction (d : SortDirection)
  | handler (h : Handler)
  deriving DecidableEq, Repr

/-- A string-or-absent property as a value. -/
def optString : Option String → JSValue
  | some s => .string s
  | none => .undefined

/-- A boolean-or-absent property as a value. -/
def optBool : Option Bool → JSValue
  | some b => .bool b
  | none => .undefined

/-- The object without the key `k`: what a rest pattern leaves of an object
once `k` is bound by the destructuring. -/
def Obj.erase {α : Type} (o : Obj α) (k : String) : Obj α :=
  fun k' => if k' = k then none else o k'

/-- `translationKeys.expandRow` (line 15). -/
def translationKeys.expandRow : String := "carbon.table.row.expand"

/-- `translationKeys.collapseRow` (line 16). -/
def translationKeys.collapseRow : String := "carbon.table.row.collapse"

/-- `defaultTranslations` (lines 23-30), as its key-value pairs. -/
def defaultTranslations : List (String × String) :=
  [ (translationKeys.expandRow, "Expand current row"),
    (translationKeys.collapseRow, "Collapse current row"),
    (translationKeys.selectAll, "Select all rows"),
    (translationKeys.unselectAll, "Unselect all rows"),
    (translationKeys.selectRow, "Select row"),
    (translationKeys.unselectRow, "Unselect row") ]

/-- The default `translateWithId` (line 32): `defaultTranslations[id]`. -/
def translateWithId (id : String) : Option String :=
  defaultTranslations.lookup id

/-- `getHeaderProps` (lines 142-154) for an argument with the keys
`header`, `onClick` and the `rest`. -/
def getHeaderProps (state : State) (header : Header) (onClick : Option CallerHandler)
    (rest : Obj PropValue) : Obj PropValue :=
  let rest := (rest.erase "header").erase "onClick"
  let o := Obj.set rest "key" (.value (.string header.key))
  let o := Obj.set o "sortDirection" (.direction state.sortDirection)
  let o := Obj.set o "isSortable" (.value (.bool true))
  let o := Obj.set o "isSortHeader"
    (.value (.bool (decide (state.sortHeaderKey = some header.key))))
  Obj.set o "onClick"
    (.handler (composeEventHandlers [some (.handleSortBy header.key), onClick.map Fn.caller]))

/-- `getRowProps` (lines 164-178) for an argument with the keys
`row`, `onClick` and the `rest`. The row id, when absent, is the property key
`undefined` inside `handleOnExpandRow`. -/
def getRowProps (props : Props) (row : RowMeta) (onClick : Option CallerHandler)
    (rest : Obj PropValue) : Obj PropValue :=
  let t := props.translateWithId
  let translationKey :=
    if truthy row.isExpanded then translationKeys.collapseRow else translationKeys.expandRow
  let rest := (rest.erase "row").erase "onClick"
  let o := Obj.set rest "key" (.value (optString row.id))
  let o := Obj.set o "onExpand"
    (.handler (composeEventHandlers
      [some (.handleOnExpandRow (templateText row.id)), onClick.map Fn.caller]))
  let o := Obj.set o "isExpanded" (.value (optBool row.isExpanded))
  Obj.set o "ariaLabel" (.value (optString (t translationKey)))

/-- `getSelectionProps` (lines 188-229) as the whole object it returns for an
argument with the keys `onClick`, `row` and the `rest`: the keys computed by
`getSelectionProps` above and the composed `onSelect`, written over `rest`. -/
def getSelectionPropsObject (props : Props) (instanceId : String) (state : State)
    (onClick : Option CallerHandler) (row : Option RowMeta) (rest : Obj PropValue) :
    Except JSError (Obj PropValue) :=
  let rest := (rest.erase "onClick").erase "row"
  match getSelectionProps props instanceId state row with
  | .error e => .error e
  | .ok p =>
    let o := Obj.set rest "ariaLabel" (.value (optString p.ariaLabel))
    let o := Obj.set o "checked" (.value (optBool p.checked))
    let o := Obj.set o "id" (.value (.string p.id))
    let o := Obj.set o "name" (.value (.string p.name))
    match row with
    | some row =>
      .ok (Obj.set o "onSelect"
        (.handler (composeEventHandlers
          [some (.handleOnSelectRow (templateText row.id)), onClick.map Fn.caller])))
    | none =>
      let o := Obj.set o "indeterminate" (.value (optBool p.indeterminate))
      .ok (Obj.set o "onSelect"
        (.handler (composeEventHandlers [some .handleSelectAll, onClick.map Fn.caller])))

/-- `getBatchActionProps` (lines 231-240) for the argument object `props`. -/
def getBatchActionProps (state : State) (props : Obj PropValue) :
    Except JSError (Obj PropValue) :=
  match getSelectedRows state with
  | .error e => .error e
  | .ok selected =>
    let totalSelected : Int := selected.length
    let o := Obj.set props "shouldShowBatchActions"
      (.value (.bool state.shouldShowBatchActions))
    let o := Obj.set o "totalSelected" (.value (.number totalSelected))
    .ok (Obj.set o "onCancel" (.handler (.single .handleOnCancel)))

/-- The handler a props object, if computed, holds under the key `k`. -/
def handlerAt (r : Except JSError (Obj PropValue)) (k : String) : Option Handler :=
  match r with
  | .ok o =>
    match o k with
    | some (.handler h) => some h
    | _ => none
  | .error _ => none

/-- A consumer's cancel handler that signals nothing. -/
def sampleCallerHandler : CallerHandler :=
  { name := "consumerOnCancel", cancels := false }

/-- An argument of `getBatchActionProps` whose only key is `onCancel`, the
consumer's handler. -/
def sampleBatchActionArg : Obj PropValue :=
  Obj.set Obj.empty "onCancel" (.handler (.single (.caller sampleCallerHandler)))

/-- The `id` of the props `getSelectionProps` returns, if it returns. -/
def selectionIdOf (r : Except JSError SelectionProps) : Option String :=
  match r with
  | .ok p => some p.id
  | .error _ => none

/-! ## The render output -/

/-- The data `render` derives from the state for its render props (lines
397-401); the accessors and handlers it hands on beside them are the functions
embedded above. `α` is what `denormalize` returns. -/
structure RenderProps (α : Type) where
  rows : α
  headers : List Header
  selectedRows : α

/-- `render` (lines 385-401), up to the render props. `denormalize`
(`tools/denormalize`) is absent from the sources and is taken as a parameter;
it may throw on an identifier it cannot resolve. -/
def render {α : Type}
    (denormalize : List String → Obj RowMeta → Obj CellMeta → Except JSError α)
    (props : Props) (state : State) : Except JSError (RenderProps α) :=
  let filteredRowIds := filteredRowIds props state
  match denormalize filteredRowIds state.rowsById state.cellsById with
  | .error e => .error e
  | .ok rows =>
    match getSelectedRows state with
    | .error e => .error e
    | .ok selected =>
      match denormalize selected state.rowsById state.cellsById with
      | .error e => .error e
      | .ok selectedRows =>
        .ok { rows := rows, headers := props.headers, selectedRows := selectedRows }

/-- The value a props object, if computed, holds under the key `k`. -/
def propAt (r : Except JSError (Obj PropValue)) (k : String) : Option PropValue :=
  match r with
  | .ok o => o k
  | .error _ => none

/-- The `checked` and `indeterminate` of the props `getSelectionProps` returns,
if it returns. -/
def aggregateOf (r : Except JSError SelectionProps) : Option (Option Bool × Option Bool) :=
  match r with
  | .ok p => some (p.checked, p.indeterminate)
  | .error _ => none

/-- A stand-in for `denormalize` in the evaluations: the entry of each
identifier, in order, a missing entry being an error. -/
def sampleDenormalize (rowIds : List String) (rowsById : Obj RowMeta)
    (_cellsById : Obj CellMeta) : Except JSError (List RowMeta) :=
  match rowIds with
  | [] => .ok []
  | id :: rest =>
    match rowsById id with
    | none => .error .typeError
    | some row =>
      match sampleDenormalize rest rowsById _cellsById with
      | .error e => .error e
      | .ok tail => .ok (row :: tail)

end DataTable

/-! # Slider: position and value

A shallow embedding of `updatePosition`, `calcValue` and `handleChange` of
`src/components/Slider/Slider.js`. A JavaScript number is modelled by the
rational it denotes. The comparisons and the clamping of the source are exact
on such values; the rounding of the double-precision operations is not
modelled, so the theorems below either concern the clamping alone or evaluate
the code on integer inputs, on which every intermediate result is an integer
that a double holds exactly.
-/

namespace Slider

/-- The value kept in `state.value`: a number, or the text of the input that
`handleChange` stores as it is; `val` is the number it denotes. -/
structure Value where
  val : ℚ
  isString : Bool
  deriving DecidableEq, Repr

/-- Strict equality `a === b` of two such values; two texts are compared only
when one is the other, handed on untouched. -/
def Value.strictEq (a b : Value) : Bool :=
  decide (a.isString = b.isString) && decide (a.val = b.val)

/-- The props `updatePosition` and `calcValue` read. `hasOnChange` is the test
`typeof props.onChange === 'function'`. -/
structure Props where
  min : ℚ
  max : ℚ
  step : ℚ
  stepMuliplier : ℚ
  disabled : Bool
  hasOnChange : Bool
  deriving DecidableEq, Repr

/-- The component state (lines 122-126). -/
structure State where
  dragging : Bool
  value : Value
  left : ℚ
  deriving DecidableEq, Repr

/-- What the handlers read of an event. `clientX` is that of the first touch
when the event has touches; `fromInput` is the test that the target carries
the class `bx-slider-text-input`; `targetValue` is `Number(evt.target.value)`. -/
structure Event where
  type : String
  which : Nat
  shiftKey : Bool
  clientX : ℚ
  fromInput : Bool
  targetValue : ℚ
  deriving DecidableEq, Repr

/-- The rectangle `this.track.getBoundingClientRect()`. -/
structure Track where
  left : ℚ
  width : ℚ
  deriving DecidableEq, Repr

/-- The pair `calcValue` returns. -/
structure Calc where
  left : ℚ
  newValue : Value
  deriving DecidableEq, Repr

/-- The lookup of `evt.which` in the direction table (lines 197-202). -/
def direction (which : Nat) : Option ℚ :=
  if which = 40 then some (-1)
  else if which = 37 then some (-1)
  else if which = 38 then some 1
  else if which = 39 then some 1
  else none

/-- `Math.round`: the nearest integer, a half going up. -/
def mathRound (x : ℚ) : ℚ :=
  (⌊x + 1 / 2⌋ : ℤ)

/-- A number as a value of the state. -/
def num (q : ℚ) : Value :=
  { val := q, isString := false }

/-- `calcValue` up to the clamping (lines 181-221). -/
def calcValueRaw (track : Track) (evt : Option Event) (prevState : State) (props : Props) :
    Calc :=
  let range := props.max - props.min
  let value := prevState.value
  let valuePercentage := (value.val - props.min) / range * 100
  let c₀ : Calc := { left := valuePercentage, newValue := value }
  match evt with
  | none => c₀
  | some evt =>
    let c₁ : Calc :=
      if evt.type = "keydown" then
        match direction evt.which with
        | some direction =>
          let multiplier :=
            if evt.shiftKey = true then range / props.step / props.stepMuliplier else 1
          let stepMultiplied := props.step * multiplier
          let stepSize := stepMultiplied / range * 100
          { left := valuePercentage + stepSize * direction
            newValue := num (value.val + stepMultiplied * direction) }
        | none => c₀
      else c₀
    if evt.type = "mousemove" ∨ evt.type = "click" ∨ evt.type = "touchmove" then
      let ratio := (evt.clientX - track.left) / track.width
      let rounded := props.min + mathRound (range * ratio / props.step) * props.step
      { left := (rounded - props.min) / range * 100, newValue := num rounded }
    else c₁

/-- The two clamping tests of `calcValue` (lines 223-230). -/
def clamp (props : Props) (c : Calc) : Calc :=
  let c₁ : Calc :=
    if c.newValue.val ≤ props.min then { left := 0, newValue := num props.min } else c
  if c₁.newValue.val ≥ props.max then { left := 100, newValue := num props.max } else c₁

/-- `calcValue` (lines 180-233). -/
def calcValue (track : Track) (evt : Option Event) (prevState : State) (props : Props) :
    Calc :=
  clamp props (calcValueRaw track evt prevState props)

/-- The updater `updatePosition` schedules (lines 154-176): the next state and
the value handed to `props.onChange`, if it is called. -/
def updatePositionUpdater (track : Track) (evt : Option Event) (prevState : State)
    (props : Props) : State × Option ℚ :=
  let fromInput : Bool :=
    match evt with
    | some evt => evt.fromInput
    | none => false
  let c := calcValue track evt prevState props
  let newValue : Value :=
    match evt with
    | some evt => if fromInput then num evt.targetValue else c.newValue
    | none => c.newValue
  if decide (prevState.left = c.left) && prevState.value.strictEq newValue then
    ({ prevState with dragging := false }, none)
  else
    ({ dragging := false, left := c.left, value := newValue },
      if props.hasOnChange then some newValue.val else none)

/-- `updatePosition` (lines 138-178) with the frame it requests run at once:
`none` when it returns before scheduling anything (a disabled slider handed an
event, or a drag in progress). -/
def updatePosition (track : Track) (evt : Option Event) (props : Props) (state : State) :
    Option (State × Option ℚ) :=
  if evt.isSome && props.disabled then none
  else if state.dragging then none
  else some (updatePositionUpdater track evt { state with dragging := true } props)

/-- `handleChange` (lines 289-292): the text of the input is stored as the
value, then `updatePosition` runs on the event. -/
def handleChange (track : Track) (evt : Event) (props : Props) (state : State) :
    State × Option ℚ :=
  let typed : State := { state with value := { val := evt.targetValue, isString := true } }
  match updatePosition track (some evt) props typed with
  | some r => r
  | none => (typed, none)

/-- Props of a slider from 0 to 100 with the default step and multiplier. -/
def sampleProps : Props :=
  { min := 0, max := 100, step := 1, stepMuliplier := 4, disabled := false,
    hasOnChange := true }

/-- The slider at 50. -/
def sampleState : State :=
  { dragging := false, value := num 50, left := 50 }

/-- A change event of the text input in which `1000` was typed. -/
def typed1000 : Event :=
  { type := "change", which := 0, shiftKey := false, clientX := 0, fromInput := true,
    targetValue := 1000 }

/-- A track 200 pixels wide at the left edge of the page. -/
def sampleTrack : Track :=
  { left := 0, width := 200 }

end Slider

namespace DataTable

/-! ## Auxiliary facts -/

theorem readEntry_of_own (rowsById : Obj RowMeta) (k : String) (row : RowMeta)
    (h : rowsById k = some row) : readEntry rowsById k = some row := by
  simp only [readEntry, h]

theorem isSelectedIn_of_readEntry (rowsById : Obj RowMeta) (k : String) (row : RowMeta)
    (h : readEntry rowsById k = some row) :
    isSelectedIn rowsById k = truthy row.isSelected := by
  unfold readEntry at h
  unfold isSelectedIn
  cases hk : rowsById k with
  | some r =>
    simp only [hk] at h
    injection h with h
    rw [h]
  | none =>
    simp only [hk] at h
    by_cases hmem : k ∈ objectPrototypeKeys
    · simp only [hmem, if_true] at h
      injection h with h
      rw [← h]
      rfl
    · simp only [hmem, if_false] at h
      cases h

theorem filterE_readIsSelected (rowsById : Obj RowMeta) (l : List String)
    (h : ∀ id ∈ l, (rowsById id).isSome = true) :
    filterE (readIsSelected rowsById) l = .ok (l.filter (isSelectedIn rowsById)) := by
  induction l with
  | nil => rfl
  | cons a rest ih =>
    have ha := h a (List.mem_cons_self a rest)
    have hr := ih (fun id hid => h id (List.mem_cons_of_mem a hid))
    obtain ⟨row, hrow⟩ := Option.isSome_iff_exists.mp ha
    simp only [filterE, readIsSelected, readEntry_of_own _ _ _ hrow, hrow, hr, isSelectedIn,
      List.filter_cons]

theorem getSelectedRows_ok (s : State) (h : HasAllRows s) :
    getSelectedRows s = .ok (s.rowIds.filter (isSelectedIn s.rowsById)) :=
  filterE_readIsSelected s.rowsById s.rowIds h

theorem foldl_set_apply (rowsById : Obj RowMeta) (b : Bool) (l : List String)
    (acc : Obj RowMeta) (k : String) :
    (l.foldl (fun acc id =>
        Obj.set acc id { spreadRow (rowsById id) with isSelected := some b }) acc) k
      = if k ∈ l then some { spreadRow (rowsById k) with isSelected := some b } else acc k := by
  induction l generalizing acc with
  | nil => simp
  | cons a rest ih =>
    rw [List.foldl_cons, ih]
    by_cases hk : k ∈ rest
    · simp [hk]
    · by_cases hka : k = a
      · subst hka
        simp [hk, Obj.set]
      · simp [hk, hka, Obj.set]

theorem setAll_rowsById (s : State) (b : Bool) (u : StateUpdate) (k : String) :
    (setState s (StateUpdate.merge u (setAllSelectedState s b))).rowsById k
      = if k ∈ s.rowIds then some { spreadRow (s.rowsById k) with isSelected := some b }
        else none := by
  have h := foldl_set_apply s.rowsById b s.rowIds Obj.empty k
  simp only [Obj.empty] at h
  exact h

theorem selectedCount_le (s : State) : selectedCount s ≤ s.rowIds.length :=
  List.length_filter_le _ _

theorem selectedCount_eq_length (s : State) :
    selectedCount s = s.rowIds.length ↔ ∀ id ∈ s.rowIds, isSelectedIn s.rowsById id = true :=
  List.filter_length_eq_length

/-! ## Selection aggregate and select-all -/

/-- C1: in a table state (every identifier of `rowIds` has its `RowMeta`),
`getSelectionProps` called without a row returns props whose `checked` is true
iff the table has at least one row and the number of selected rows equals the
number of rows, and whose `indeterminate` is true iff the number of selected
rows is strictly between 0 and the number of rows. In particular zero rows
give (false, false), and three rows with 0, 1, 3 selected give (false, false),
(false, true), (true, false). -/
theorem getSelectionProps_selectAll_aggregate (props : Props) (instanceId : String)
    (s : State) (h : HasAllRows s) :
    ∃ p, getSelectionProps props instanceId s none = .ok p ∧
      p.checked = some (decide (0 < s.rowIds.length ∧ selectedCount s = s.rowIds.length)) ∧
      p.indeterminate
        = some (decide (0 < selectedCount s ∧ selectedCount s < s.rowIds.length)) ∧
      (s.rowIds.length = 0 → p.checked = some false ∧ p.indeterminate = some false) ∧
      (s.rowIds.length = 3 → selectedCount s = 0 →
        p.checked = some false ∧ p.indeterminate = some false) ∧
      (s.rowIds.length = 3 → selectedCount s = 1 →
        p.checked = some false ∧ p.indeterminate = some true) ∧
      (s.rowIds.length = 3 → selectedCount s = 3 →
        p.checked = some true ∧ p.indeterminate = some false) := by
  have hle := selectedCount_le s
  have hc : (decide ((s.rowIds.length : Int) > 0)
        && decide (((s.rowIds.filter (isSelectedIn s.rowsById)).length : Int) = s.rowIds.length))
      = decide (0 < s.rowIds.length ∧ selectedCount s = s.rowIds.length) := by
    rw [Bool.eq_iff_iff]
    simp only [Bool.and_eq_true, decide_eq_true_eq, selectedCount]
    omega
  have hi : (decide ((s.rowIds.length : Int) > 0)
        && decide (((s.rowIds.filter (isSelectedIn s.rowsById)).length : Int) > 0)
        && decide (((s.rowIds.filter (isSelectedIn s.rowsById)).length : Int) ≠ s.rowIds.length))
      = decide (0 < selectedCount s ∧ selectedCount s < s.rowIds.length) := by
    rw [Bool.eq_iff_iff]
    simp only [Bool.and_eq_true, decide_eq_true_eq, selectedCount] at hle ⊢
    omega
  refine ⟨{ ariaLabel := props.translateWithId
                (if decide (0 < s.rowIds.length ∧ selectedCount s = s.rowIds.length)
                  then translationKeys.unselectAll else translationKeys.selectAll),
             checked := some (decide (0 < s.rowIds.length ∧ selectedCount s = s.rowIds.length)),
             id := getTablePrefix instanceId ++ "__select-all",
             indeterminate :=
               some (decide (0 < selectedCount s ∧ selectedCount s < s.rowIds.length)),
             name := "select-all" }, ?_, rfl, rfl, ?_, ?_, ?_, ?_⟩
  · simp only [getSelectionProps, getSelectedRows_ok s h, hc, hi]
  · intro hn
    simp only [hn]
    constructor <;> simp
  · intro hn hk
    simp only [hn, hk]
    constructor <;> simp
  · intro hn hk
    simp only [hn, hk]
    constructor <;> simp
  · intro hn hk
    simp only [hn, hk]
    constructor <;> simp

/-- C1, evaluated: rows `a`, `b`, `c` with only `b` selected give an unchecked,
indeterminate select-all control. -/
theorem getSelectionProps_selectAll_aggregate_witness :
    ∃ p, getSelectionProps sampleProps "7" (sampleState false true false true) none = .ok p ∧
      p.checked = some false ∧ p.indeterminate = some true := by
  obtain ⟨p, hp, _, _, _, _, h1, _⟩ :=
    getSelectionProps_selectAll_aggregate sampleProps "7" (sampleState false true false true)
      (by decide)
  exact ⟨p, hp, h1 (by decide) (by decide)⟩

theorem handleSelectAll_ok (s : State) (h : HasAllRows s) :
    handleSelectAll s = .ok (setState s (StateUpdate.merge
      { StateUpdate.empty with
        shouldShowBatchActions := some (decide (selectedCount s ≠ s.rowIds.length)) }
      (setAllSelectedState s (decide (selectedCount s ≠ s.rowIds.length))))) := by
  have hb : decide (((s.rowIds.filter (isSelectedIn s.rowsById)).length : Int)
      ≠ (s.rowIds.length : Int)) = decide (selectedCount s ≠ s.rowIds.length) := by
    rw [Bool.eq_iff_iff]
    simp only [decide_eq_true_eq, selectedCount]
    omega
  simp only [handleSelectAll, handleSelectAllUpdater, getSelectedRows_ok s h, hb]

theorem handleSelectAll_rowsById (s s' : State) (h : HasAllRows s)
    (hs : handleSelectAll s = .ok s') (k : String) :
    s'.rowsById k = if k ∈ s.rowIds then
        some { spreadRow (s.rowsById k) with
               isSelected := some (decide (selectedCount s ≠ s.rowIds.length)) }
      else none := by
  rw [handleSelectAll_ok s h] at hs
  cases hs
  exact setAll_rowsById s _ _ k

theorem handleSelectAll_flag (s s' : State) (h : HasAllRows s)
    (hs : handleSelectAll s = .ok s') :
    s'.shouldShowBatchActions = decide (selectedCount s ≠ s.rowIds.length) := by
  rw [handleSelectAll_ok s h] at hs
  cases hs
  rfl

theorem handleSelectAll_sameView (s s' : State) (h : HasAllRows s)
    (hs : handleSelectAll s = .ok s') : SameView s s' := by
  rw [handleSelectAll_ok s h] at hs
  cases hs
  exact ⟨rfl, rfl, rfl, rfl, rfl⟩

/-- C2: in a table state, `handleSelectAll` returns a state in which every row
of `rowIds` is selected when at least one row was unselected beforehand, and in
which every row of `rowIds` is unselected when all rows were selected. -/
theorem handleSelectAll_toggles (s : State) (h : HasAllRows s) :
    ∃ s', handleSelectAll s = .ok s' ∧ s'.rowIds = s.rowIds ∧
      ((∃ id ∈ s.rowIds, isSelectedIn s.rowsById id = false) →
        ∀ id ∈ s'.rowIds, ∃ r, s'.rowsById id = some r ∧ r.isSelected = some true) ∧
      ((∀ id ∈ s.rowIds, isSelectedIn s.rowsById id = true) →
        ∀ id ∈ s'.rowIds, ∃ r, s'.rowsById id = some r ∧ r.isSelected = some false) := by
  refine ⟨_, handleSelectAll_ok s h, rfl, ?_, ?_⟩
  · rintro ⟨a, ha, hsel⟩ id hid
    have hne : selectedCount s ≠ s.rowIds.length := by
      intro heq
      have := (selectedCount_eq_length s).mp heq a ha
      rw [hsel] at this
      exact Bool.false_ne_true this
    refine ⟨_, (handleSelectAll_rowsById s _ h (handleSelectAll_ok s h) id).trans (if_pos hid), ?_⟩
    simp [hne]
  · intro hall id hid
    have heq : selectedCount s = s.rowIds.length := (selectedCount_eq_length s).mpr hall
    refine ⟨_, (handleSelectAll_rowsById s _ h (handleSelectAll_ok s h) id).trans (if_pos hid), ?_⟩
    simp [heq]

/-- C2, evaluated: with only `b` selected among `a`, `b`, `c`, select-all
leaves all three rows selected. -/
theorem handleSelectAll_toggles_witness :
    ∃ s', handleSelectAll (sampleState false true false true) = .ok s' ∧
      ∀ id ∈ s'.rowIds, ∃ r, s'.rowsById id = some r ∧ r.isSelected = some true := by
  obtain ⟨s', hs', _, hsel, _⟩ :=
    handleSelectAll_toggles (sampleState false true false true) (by decide)
  exact ⟨s', hs', hsel ⟨"a", by decide, by decide⟩⟩

/-- C5: in a table state, also one with zero rows, after `handleSelectAll` the
flag `shouldShowBatchActions` is true iff at least one row of `rowIds` is
selected in the resulting state. -/
theorem handleSelectAll_batchActions (s : State) (h : HasAllRows s) :
    ∃ s', handleSelectAll s = .ok s' ∧ s'.rowIds = s.rowIds ∧
      (s'.shouldShowBatchActions = true ↔
        ∃ id ∈ s'.rowIds, isSelectedIn s'.rowsById id = true) := by
  have hs := handleSelectAll_ok s h
  generalize setState s _ = s' at hs
  have hrows := handleSelectAll_rowsById s s' h hs
  have hids : s'.rowIds = s.rowIds := (handleSelectAll_sameView s s' h hs).1
  refine ⟨s', hs, hids, ?_⟩
  rw [handleSelectAll_flag s s' h hs, hids]
  constructor
  · intro hne
    have hne' : selectedCount s ≠ s.rowIds.length := of_decide_eq_true hne
    have hlt : selectedCount s < s.rowIds.length :=
      lt_of_le_of_ne (selectedCount_le s) hne'
    obtain ⟨a, ha⟩ := List.exists_mem_of_length_pos (Nat.zero_lt_of_lt hlt)
    refine ⟨a, ha, ?_⟩
    rw [isSelectedIn, hrows a, if_pos ha]
    simp [truthy, hne']
  · rintro ⟨a, ha, hsel⟩
    by_contra hn
    have heq : selectedCount s = s.rowIds.length := by
      by_contra hne
      exact hn (decide_eq_true hne)
    rw [isSelectedIn, hrows a, if_pos ha] at hsel
    simp [truthy, heq] at hsel

/-- C5, evaluated on the table with zero rows: the flag is false afterwards. -/
theorem handleSelectAll_batchActions_witness :
    ∃ s', handleSelectAll { sampleState false false false true with rowIds := [] } = .ok s' ∧
      s'.shouldShowBatchActions = false := by
  obtain ⟨s', hs', hids, hiff⟩ :=
    handleSelectAll_batchActions { sampleState false false false true with rowIds := [] }
      (by decide)
  refine ⟨s', hs', ?_⟩
  cases hflag : s'.shouldShowBatchActions
  · rfl
  · obtain ⟨id, hid, _⟩ := hiff.mp hflag
    rw [hids] at hid
    cases hid

/-! ## Toggling one row -/

theorem filter_length_split (p : String → Bool) (x : String) (l : List String)
    (hnd : l.Nodup) (hx : x ∈ l) (hp : p x = true) :
    (l.filter p).length = (l.filter (fun id => p id && !decide (id = x))).length + 1 := by
  induction l with
  | nil => cases hx
  | cons a rest ih =>
    obtain ⟨hna, hnr⟩ := List.nodup_cons.mp hnd
    by_cases hax : a = x
    · subst hax
      have hcongr : rest.filter (fun id => p id && !decide (id = a)) = rest.filter p := by
        apply List.filter_congr
        intro id hid
        have : id ≠ a := fun e => hna (e ▸ hid)
        simp [this]
      simp [List.filter_cons, hp, hcongr]
    · have hxr : x ∈ rest := by
        rcases List.mem_cons.mp hx with e | e
        · exact absurd e.symm hax
        · exact e
      have := ih hnr hxr
      by_cases hpa : p a = true
      · simp [List.filter_cons, hpa, hax, this]
      · simp [List.filter_cons, hpa, this]

theorem exists_other_selected (p : String → Bool) (x : String) (l : List String)
    (hnd : l.Nodup) (hx : x ∈ l) (hp : p x = true) :
    (∃ id ∈ l, id ≠ x ∧ p id = true) ↔ 2 ≤ (l.filter p).length := by
  rw [filter_length_split p x l hnd hx hp]
  constructor
  · rintro ⟨id, hid, hne, hpid⟩
    have hmem : id ∈ l.filter (fun id => p id && !decide (id = x)) := by
      simp [List.mem_filter, hid, hne, hpid]
    have := List.length_pos_of_mem hmem
    omega
  · intro hlen
    have hpos : 0 < (l.filter (fun id => p id && !decide (id = x))).length := by omega
    obtain ⟨id, hid⟩ := List.exists_mem_of_length_pos hpos
    simp only [List.mem_filter, Bool.and_eq_true, Bool.not_eq_true', decide_eq_false_iff_not] at hid
    exact ⟨id, hid.1, hid.2.2, hid.2.1⟩

theorem handleOnSelectRow_ok (s : State) (rowId : String) (row : RowMeta)
    (h : HasAllRows s) (hrow : s.rowsById rowId = some row) :
    handleOnSelectRow rowId s = .ok
      { s with
        shouldShowBatchActions :=
          (!truthy row.isSelected ||
            decide ((if !truthy row.isSelected then (selectedCount s : Int) + 1
              else (selectedCount s : Int) - 1) > 0))
        rowsById := Obj.set s.rowsById rowId
          { row with isSelected := some (!truthy row.isSelected) } } := by
  simp only [handleOnSelectRow, handleOnSelectRowUpdater,
    filterE_readIsSelected s.rowsById s.rowIds h, readEntry_of_own _ _ _ hrow, selectedCount]
  rfl

theorem isSelectedIn_set_self (o : Obj RowMeta) (k : String) (r : RowMeta) :
    isSelectedIn (Obj.set o k r) k = truthy r.isSelected := by
  simp [isSelectedIn, Obj.set]

theorem isSelectedIn_set_ne (o : Obj RowMeta) (k : String) (r : RowMeta) (id : String)
    (hne : id ≠ k) : isSelectedIn (Obj.set o k r) id = isSelectedIn o id := by
  simp [isSelectedIn, Obj.set, hne]

/-- C3: in a table state, for a `rowId` that has an entry in `rowsById`,
`handleOnSelectRow(rowId)` negates that row's `isSelected`, keeps its `id` and
`isExpanded`, and leaves the entry of every other key as it was. -/
theorem handleOnSelectRow_row (s : State) (rowId : String) (row : RowMeta)
    (h : HasAllRows s) (hrow : s.rowsById rowId = some row) :
    ∃ s', handleOnSelectRow rowId s = .ok s' ∧
      s'.rowsById rowId = some { id := row.id
                                 isSelected := some (!truthy row.isSelected)
                                 isExpanded := row.isExpanded } ∧
      ∀ id, id ≠ rowId → s'.rowsById id = s.rowsById id := by
  refine ⟨_, handleOnSelectRow_ok s rowId row h hrow, ?_, ?_⟩
  · simp [Obj.set]
  · intro id hne
    simp [Obj.set, hne]

/-- C3, evaluated: toggling the selected row `b` unselects it and leaves `c`
alone. -/
theorem handleOnSelectRow_row_witness :
    ∃ s', handleOnSelectRow "b" (sampleState false true false true) = .ok s' ∧
      s'.rowsById "b" = some (mkRow "b" false false) ∧
      s'.rowsById "c" = some (mkRow "c" false true) := by
  obtain ⟨s', hs', hb, hothers⟩ :=
    handleOnSelectRow_row (sampleState false true false true) "b" (mkRow "b" true false)
      (by decide) (by decide)
  exact ⟨s', hs', hb, (hothers "c" (by decide)).trans (by decide)⟩

/-- C4: in a table state whose `rowIds` are pairwise distinct, for a `rowId` of
`rowIds`, after `handleOnSelectRow(rowId)` the flag `shouldShowBatchActions` is
true if the row became selected, and if the row became unselected it is true
iff at least one other row of `rowIds` is still selected. -/
theorem handleOnSelectRow_batchActions (s : State) (rowId : String)
    (h : HasAllRows s) (hnd : s.rowIds.Nodup) (hmem : rowId ∈ s.rowIds) :
    ∃ s', handleOnSelectRow rowId s = .ok s' ∧ s'.rowIds = s.rowIds ∧
      (isSelectedIn s'.rowsById rowId = true → s'.shouldShowBatchActions = true) ∧
      (isSelectedIn s'.rowsById rowId = false →
        (s'.shouldShowBatchActions = true ↔
          ∃ id ∈ s'.rowIds, id ≠ rowId ∧ isSelectedIn s'.rowsById id = true)) := by
  obtain ⟨row, hrow⟩ := Option.isSome_iff_exists.mp (h rowId hmem)
  refine ⟨_, handleOnSelectRow_ok s rowId row h hrow, rfl, ?_, ?_⟩
  · intro hsel
    have hself := isSelectedIn_set_self s.rowsById rowId
      { row with isSelected := some (!truthy row.isSelected) }
    have hneg : (!truthy row.isSelected) = true := by
      rw [← hsel]
      exact hself.symm
    simp only [hneg, Bool.true_or]
  · intro hsel
    have hself := isSelectedIn_set_self s.rowsById rowId
      { row with isSelected := some (!truthy row.isSelected) }
    have hold : truthy row.isSelected = true := by
      have hneg : (!truthy row.isSelected) = false := by
        rw [← hsel]
        exact hself.symm
      simpa using hneg
    have hp : isSelectedIn s.rowsById rowId = true := by
      simp [isSelectedIn, hrow, hold]
    have hcount := exists_other_selected (isSelectedIn s.rowsById) rowId s.rowIds hnd hmem hp
    have hsame : (∃ id ∈ s.rowIds, id ≠ rowId ∧
          isSelectedIn (Obj.set s.rowsById rowId
            { row with isSelected := some (!truthy row.isSelected) }) id = true)
        ↔ ∃ id ∈ s.rowIds, id ≠ rowId ∧ isSelectedIn s.rowsById id = true := by
      constructor
      · rintro ⟨id, hid, hne, hs⟩
        exact ⟨id, hid, hne, by rwa [isSelectedIn_set_ne _ _ _ _ hne] at hs⟩
      · rintro ⟨id, hid, hne, hs⟩
        exact ⟨id, hid, hne, by rwa [isSelectedIn_set_ne _ _ _ _ hne]⟩
    show ((!truthy row.isSelected ||
            decide ((if (!truthy row.isSelected) = true then (selectedCount s : Int) + 1
              else (selectedCount s : Int) - 1) > 0)) = true) ↔ _
    rw [hsame, hcount]
    simp only [hold, Bool.not_true, Bool.false_or, decide_eq_true_eq, selectedCount]
    simp only [Bool.false_eq_true, if_false]
    omega

/-- C4, evaluated: unselecting `b`, the only selected row, hides the batch
actions. -/
theorem handleOnSelectRow_batchActions_witness :
    ∃ s', handleOnSelectRow "b" (sampleState false true false true) = .ok s' ∧
      s'.shouldShowBatchActions = false := by
  obtain ⟨s', hs', hids, _, hoff⟩ :=
    handleOnSelectRow_batchActions (sampleState false true false true) "b"
      (by decide) (by decide) (by decide)
  have hb : s' = ({ sampleState false true false true with
      shouldShowBatchActions := false
      rowsById := Obj.set (sampleState false true false true).rowsById "b"
        (mkRow "b" false false) } : State) := by
    have h2 : handleOnSelectRow "b" (sampleState false true false true) = .ok _ :=
      handleOnSelectRow_ok (sampleState false true false true) "b" (mkRow "b" true false)
        (by decide) (by decide)
    rw [hs'] at h2
    injection h2
  exact ⟨s', hs', by rw [hb]⟩

/-! ## Cancel, expansion, frame conditions and the filter -/

/-- C6: from every state `handleOnCancel` yields a state in which every row of
`rowIds` has `isSelected = false` and `shouldShowBatchActions` is false, while
every row's `id` and `isExpanded`, the order of `rowIds`, `cellsById`,
`sortHeaderKey`, `sortDirection` and `filterInputValue` keep their values. -/
theorem handleOnCancel_deselects_and_frames (s : State) :
    (∀ id ∈ s.rowIds, ∃ r, (handleOnCancel s).rowsById id = some r ∧
      r.isSelected = some false) ∧
    (handleOnCancel s).shouldShowBatchActions = false ∧
    (∀ id ∈ s.rowIds, ∀ row, s.rowsById id = some row →
      (handleOnCancel s).rowsById id
        = some { id := row.id, isSelected := some false, isExpanded := row.isExpanded }) ∧
    (handleOnCancel s).rowIds = s.rowIds ∧
    (handleOnCancel s).cellsById = s.cellsById ∧
    (handleOnCancel s).sortHeaderKey = s.sortHeaderKey ∧
    (handleOnCancel s).sortDirection = s.sortDirection ∧
    (handleOnCancel s).filterInputValue = s.filterInputValue := by
  have hrows : ∀ k, (handleOnCancel s).rowsById k
      = if k ∈ s.rowIds then some { spreadRow (s.rowsById k) with isSelected := some false }
        else none := fun k => setAll_rowsById s false _ k
  refine ⟨?_, rfl, ?_, rfl, rfl, rfl, rfl, rfl⟩
  · intro id hid
    exact ⟨_, (hrows id).trans (if_pos hid), rfl⟩
  · intro id hid row hrow
    rw [hrows id, if_pos hid, hrow]
    rfl

/-- C7: for a `rowId` that has an entry in `rowsById`, `handleOnExpandRow(rowId)`
negates that row's `isExpanded` and leaves unchanged every row's `isSelected`,
every other row's entry, and `shouldShowBatchActions`. -/
theorem handleOnExpandRow_row (s : State) (rowId : String) (row : RowMeta)
    (hrow : s.rowsById rowId = some row) :
    ∃ s', handleOnExpandRow rowId s = .ok s' ∧
      s'.rowsById rowId = some { id := row.id
                                 isSelected := row.isSelected
                                 isExpanded := some (!truthy row.isExpanded) } ∧
      (∀ id, id ≠ rowId → s'.rowsById id = s.rowsById id) ∧
      (∀ id, (s'.rowsById id).map RowMeta.isSelected
        = (s.rowsById id).map RowMeta.isSelected) ∧
      s'.shouldShowBatchActions = s.shouldShowBatchActions := by
  have hok : handleOnExpandRow rowId s = .ok
      { s with rowsById := Obj.set s.rowsById rowId
                 { row with isExpanded := some (!truthy row.isExpanded) } } := by
    simp only [handleOnExpandRow, handleOnExpandRowUpdater, readEntry_of_own _ _ _ hrow]
    rfl
  refine ⟨_, hok, ?_, ?_, ?_, rfl⟩
  · simp [Obj.set]
  · intro id hne
    simp [Obj.set, hne]
  · intro id
    by_cases hid : id = rowId
    · subst hid
      simp [Obj.set, hrow]
    · simp [Obj.set, hid]

/-- C7, evaluated: expanding the collapsed row `a` sets its `isExpanded` and
keeps the batch-actions flag. -/
theorem handleOnExpandRow_row_witness :
    ∃ s', handleOnExpandRow "a" (sampleState false true false true) = .ok s' ∧
      s'.rowsById "a" = some (mkRow "a" false true) ∧
      s'.shouldShowBatchActions = true := by
  obtain ⟨s', hs', ha, _, _, hflag⟩ :=
    handleOnExpandRow_row (sampleState false true false true) "a" (mkRow "a" false false)
      (by decide)
  exact ⟨s', hs', ha, hflag⟩

/-- C8: in a table state, `handleOnSelectRow(rowId)` (for a `rowId` with an
entry) and `handleSelectAll` leave `sortHeaderKey`, `sortDirection`,
`filterInputValue`, the order of `rowIds` and `cellsById` as they were; the
partial state each updater returns mentions no key other than `rowsById` and
`shouldShowBatchActions`. -/
theorem selection_toggles_preserve_view (s : State) (rowId : String)
    (h : HasAllRows s) (hrow : (s.rowsById rowId).isSome = true) :
    (∃ u s', handleOnSelectRowUpdater rowId s = .ok u ∧ TouchesOnlySelection u ∧
      handleOnSelectRow rowId s = .ok s' ∧ SameView s s') ∧
    (∃ u s', handleSelectAllUpdater s s = .ok u ∧ TouchesOnlySelection u ∧
      handleSelectAll s = .ok s' ∧ SameView s s') := by
  obtain ⟨row, hrow⟩ := Option.isSome_iff_exists.mp hrow
  have hu : handleOnSelectRowUpdater rowId s = .ok
      { StateUpdate.empty with
        shouldShowBatchActions := some (!truthy row.isSelected ||
          decide ((if !truthy row.isSelected then (selectedCount s : Int) + 1
            else (selectedCount s : Int) - 1) > 0))
        rowsById := some (Obj.set s.rowsById rowId
          { row with isSelected := some (!truthy row.isSelected) }) } := by
    simp only [handleOnSelectRowUpdater, filterE_readIsSelected s.rowsById s.rowIds h,
      readEntry_of_own _ _ _ hrow, selectedCount]
  have hv : handleSelectAllUpdater s s = .ok (StateUpdate.merge
      { StateUpdate.empty with
        shouldShowBatchActions := some (decide (((s.rowIds.filter
          (isSelectedIn s.rowsById)).length : Int) ≠ (s.rowIds.length : Int))) }
      (setAllSelectedState s (decide (((s.rowIds.filter
          (isSelectedIn s.rowsById)).length : Int) ≠ (s.rowIds.length : Int))))) := by
    simp only [handleSelectAllUpdater, getSelectedRows_ok s h]
  constructor
  · exact ⟨_, _, hu, ⟨rfl, rfl, rfl, rfl, rfl⟩, handleOnSelectRow_ok s rowId row h hrow,
      ⟨rfl, rfl, rfl, rfl, rfl⟩⟩
  · exact ⟨_, _, hv, ⟨rfl, rfl, rfl, rfl, rfl⟩, handleSelectAll_ok s h,
      handleSelectAll_sameView s _ h (handleSelectAll_ok s h)⟩

/-- C8, evaluated: selecting row `a` of the sample table keeps the five view
fields. -/
theorem selection_toggles_preserve_view_witness :
    ∃ s', handleOnSelectRow "a" (sampleState false true false true) = .ok s' ∧
      SameView (sampleState false true false true) s' := by
  obtain ⟨⟨_, s', _, _, hs', hview⟩, _⟩ :=
    selection_toggles_preserve_view (sampleState false true false true) "a"
      (by decide) (by decide)
  exact ⟨s', hs', hview⟩

/-- C9: whenever `filterInputValue` is not a string, the list of row identifiers
`render` hands to `denormalize` for the `rows` output is `state.rowIds` itself,
whatever the configured `filterRows` function. -/
theorem filteredRowIds_identity (props : Props) (s : State)
    (h : s.filterInputValue.isString = false) :
    filteredRowIds props s = s.rowIds := by
  unfold filteredRowIds
  cases hv : s.filterInputValue with
  | string v => simp [hv, JSValue.isString] at h
  | undefined => rfl
  | null => rfl
  | bool b => rfl
  | number n => rfl

/-- C9, evaluated: with an undefined filter input, a `filterRows` that would
drop every row is not consulted. -/
theorem filteredRowIds_identity_witness :
    filteredRowIds sampleProps (sampleState false true false true) = ["a", "b", "c"] :=
  filteredRowIds_identity sampleProps (sampleState false true false true) (by decide)

/-- C10: `handleOnInputValueChange` changes only `filterInputValue`: `rowIds`,
`rowsById`, `cellsById`, `sortHeaderKey`, `sortDirection` and
`shouldShowBatchActions` keep their values. -/
theorem handleOnInputValueChange_frame (value : JSValue) (s : State) :
    (handleOnInputValueChange value s).filterInputValue = value ∧
    (handleOnInputValueChange value s).rowIds = s.rowIds ∧
    (handleOnInputValueChange value s).rowsById = s.rowsById ∧
    (handleOnInputValueChange value s).cellsById = s.cellsById ∧
    (handleOnInputValueChange value s).sortHeaderKey = s.sortHeaderKey ∧
    (handleOnInputValueChange value s).sortDirection = s.sortDirection ∧
    (handleOnInputValueChange value s).shouldShowBatchActions = s.shouldShowBatchActions :=
  ⟨rfl, rfl, rfl, rfl, rfl, rfl, rfl⟩

/-! ## The batch-actions invariant -/

theorem filterE_ok_eq (rowsById : Obj RowMeta) (l r : List String)
    (h : filterE (readIsSelected rowsById) l = .ok r) :
    r = l.filter (isSelectedIn rowsById) := by
  induction l generalizing r with
  | nil =>
    simp only [filterE] at h
    injection h with h
    rw [← h]
    rfl
  | cons a rest ih =>
    cases hra : readEntry rowsById a with
    | none => simp [filterE, readIsSelected, hra] at h
    | some row =>
      cases hf : filterE (readIsSelected rowsById) rest with
      | error e => simp [filterE, readIsSelected, hra, hf] at h
      | ok tail =>
        simp only [filterE, readIsSelected, hra, hf] at h
        injection h with h
        rw [← h, List.filter_cons, isSelectedIn_of_readEntry _ _ _ hra, ← ih tail hf]

theorem handleSelectAll_eq_of_ok (s s' : State) (hs : handleSelectAll s = .ok s') :
    s' = setState s (StateUpdate.merge
      { StateUpdate.empty with
        shouldShowBatchActions := some (decide (selectedCount s ≠ s.rowIds.length)) }
      (setAllSelectedState s (decide (selectedCount s ≠ s.rowIds.length)))) := by
  unfold handleSelectAll handleSelectAllUpdater getSelectedRows at hs
  cases hf : filterE (readIsSelected s.rowsById) s.rowIds with
  | error e => simp [hf] at hs
  | ok sel =>
    have hsel := filterE_ok_eq _ _ _ hf
    subst hsel
    have hb : decide (((s.rowIds.filter (isSelectedIn s.rowsById)).length : Int)
        ≠ (s.rowIds.length : Int)) = decide (selectedCount s ≠ s.rowIds.length) := by
      rw [Bool.eq_iff_iff]
      simp only [decide_eq_true_eq, selectedCount]
      omega
    simp only [hf, hb] at hs
    injection hs with hs
    exact hs.symm

theorem handleSelectAll_rowsById_of_ok (s s' : State) (hs : handleSelectAll s = .ok s')
    (k : String) :
    s'.rowsById k = if k ∈ s.rowIds then
        some { spreadRow (s.rowsById k) with
               isSelected := some (decide (selectedCount s ≠ s.rowIds.length)) }
      else none := by
  rw [handleSelectAll_eq_of_ok s s' hs]
  exact setAll_rowsById s _ _ k

theorem handleSelectAll_flag_of_ok (s s' : State) (hs : handleSelectAll s = .ok s') :
    s'.shouldShowBatchActions = decide (selectedCount s ≠ s.rowIds.length) := by
  rw [handleSelectAll_eq_of_ok s s' hs]
  rfl

theorem handleSelectAll_sameView_of_ok (s s' : State) (hs : handleSelectAll s = .ok s') :
    SameView s s' := by
  rw [handleSelectAll_eq_of_ok s s' hs]
  exact ⟨rfl, rfl, rfl, rfl, rfl⟩

theorem handleOnSelectRow_inv (rowId : String) (s s' : State)
    (h : handleOnSelectRow rowId s = .ok s') :
    ∃ row, readEntry s.rowsById rowId = some row ∧
      s' = { s with
        shouldShowBatchActions :=
          (!truthy row.isSelected ||
            decide ((if !truthy row.isSelected then (selectedCount s : Int) + 1
              else (selectedCount s : Int) - 1) > 0))
        rowsById := Obj.set s.rowsById rowId
          { row with isSelected := some (!truthy row.isSelected) } } := by
  unfold handleOnSelectRow handleOnSelectRowUpdater at h
  cases hf : filterE (readIsSelected s.rowsById) s.rowIds with
  | error e => simp [hf] at h
  | ok sel =>
    have hsel := filterE_ok_eq _ _ _ hf
    subst hsel
    cases hr : readEntry s.rowsById rowId with
    | none => simp [hf, hr] at h
    | some row =>
      refine ⟨row, rfl, ?_⟩
      simp only [hf, hr] at h
      injection h with h
      rw [← h]
      rfl

theorem handleOnExpandRow_inv (rowId : String) (s s' : State)
    (h : handleOnExpandRow rowId s = .ok s') :
    ∃ row, readEntry s.rowsById rowId = some row ∧
      s' = { s with rowsById := Obj.set s.rowsById rowId
                      { row with isExpanded := some (!truthy row.isExpanded) } } := by
  unfold handleOnExpandRow handleOnExpandRowUpdater at h
  cases hr : readEntry s.rowsById rowId with
  | none => simp [hr] at h
  | some row =>
    refine ⟨row, rfl, ?_⟩
    simp only [hr] at h
    injection h with h
    exact h.symm

theorem filter_length_count (p : String → Bool) (x : String) (l : List String) :
    (l.filter p).length
      = (l.filter (fun id => p id && !decide (id = x))).length
        + (if p x = true then l.count x else 0) := by
  induction l with
  | nil => simp
  | cons a rest ih =>
    by_cases hax : a = x
    · subst hax
      by_cases hpa : p a = true
      · simp [List.filter_cons, hpa] at ih ⊢
        omega
      · simp [List.filter_cons, hpa] at ih ⊢
        omega
    · have hxa : ¬ x = a := fun e => hax e.symm
      by_cases hpa : p a = true
      · by_cases hpx : p x = true
        · simp [List.filter_cons, hpa, hpx, hax, List.count_cons, hxa] at ih ⊢
          omega
        · simp [List.filter_cons, hpa, hpx, hax] at ih ⊢
          omega
      · by_cases hpx : p x = true
        · simp [List.filter_cons, hpa, hpx, List.count_cons, hxa] at ih ⊢
          omega
        · simp [List.filter_cons, hpa, hpx] at ih ⊢
          omega

theorem exists_other_selected_of_count (p : String → Bool) (x : String) (l : List String)
    (hc : l.count x = 1) (hp : p x = true) :
    (∃ id ∈ l, id ≠ x ∧ p id = true) ↔ 2 ≤ (l.filter p).length := by
  rw [filter_length_count p x l, if_pos hp, hc]
  constructor
  · rintro ⟨id, hid, hne, hpid⟩
    have hmem : id ∈ l.filter (fun id => p id && !decide (id = x)) := by
      simp [List.mem_filter, hid, hne, hpid]
    have := List.length_pos_of_mem hmem
    omega
  · intro hlen
    have hpos : 0 < (l.filter (fun id => p id && !decide (id = x))).length := by omega
    obtain ⟨id, hid⟩ := List.exists_mem_of_length_pos hpos
    simp only [List.mem_filter, Bool.and_eq_true, Bool.not_eq_true',
      decide_eq_false_iff_not] at hid
    exact ⟨id, hid.1, hid.2.2, hid.2.1⟩

theorem match_selectAll (s s' : State) (hs : handleSelectAll s = .ok s') :
    BatchActionsMatch s' := by
  have hrows := handleSelectAll_rowsById_of_ok s s' hs
  have hids : s'.rowIds = s.rowIds := (handleSelectAll_sameView_of_ok s s' hs).1
  unfold BatchActionsMatch
  rw [handleSelectAll_flag_of_ok s s' hs, hids]
  constructor
  · intro hne
    have hne' : selectedCount s ≠ s.rowIds.length := of_decide_eq_true hne
    have hlt : selectedCount s < s.rowIds.length :=
      lt_of_le_of_ne (selectedCount_le s) hne'
    obtain ⟨a, ha⟩ := List.exists_mem_of_length_pos (Nat.zero_lt_of_lt hlt)
    refine ⟨a, ha, ?_⟩
    rw [isSelectedIn, hrows a, if_pos ha]
    simp [truthy, hne']
  · rintro ⟨a, ha, hsel⟩
    by_contra hn
    have heq : selectedCount s = s.rowIds.length := by
      by_contra hne
      exact hn (decide_eq_true hne)
    rw [isSelectedIn, hrows a, if_pos ha] at hsel
    simp [truthy, heq] at hsel

theorem match_cancel (s : State) : BatchActionsMatch (handleOnCancel s) := by
  have hrows : ∀ k, (handleOnCancel s).rowsById k
      = if k ∈ s.rowIds then some { spreadRow (s.rowsById k) with isSelected := some false }
        else none := fun k => setAll_rowsById s false _ k
  have hflag : (handleOnCancel s).shouldShowBatchActions = false := rfl
  have hids : (handleOnCancel s).rowIds = s.rowIds := rfl
  unfold BatchActionsMatch
  rw [hflag, hids]
  constructor
  · intro hf
    exact absurd hf Bool.false_ne_true
  · rintro ⟨a, ha, hsel⟩
    rw [isSelectedIn, hrows a, if_pos ha] at hsel
    simp [truthy] at hsel

theorem match_selectRow (rowId : String) (s s' : State) (hc : s.rowIds.count rowId = 1)
    (hs : handleOnSelectRow rowId s = .ok s') : BatchActionsMatch s' := by
  obtain ⟨row, hrow, hs'⟩ := handleOnSelectRow_inv rowId s s' hs
  have hmem : rowId ∈ s.rowIds := List.count_pos_iff.mp (by omega)
  subst hs'
  have hself := isSelectedIn_set_self s.rowsById rowId
    { row with isSelected := some (!truthy row.isSelected) }
  unfold BatchActionsMatch
  show ((!truthy row.isSelected ||
      decide ((if (!truthy row.isSelected) = true then (selectedCount s : Int) + 1
        else (selectedCount s : Int) - 1) > 0)) = true) ↔
    ∃ id ∈ s.rowIds, isSelectedIn (Obj.set s.rowsById rowId
      { row with isSelected := some (!truthy row.isSelected) }) id = true
  cases hsel : truthy row.isSelected with
  | false =>
    simp only [Bool.not_false, Bool.true_or, true_iff]
    exact ⟨rowId, hmem, isSelectedIn_set_self _ _ _⟩
  | true =>
    have hp : isSelectedIn s.rowsById rowId = true := by
      rw [isSelectedIn_of_readEntry _ _ _ hrow, hsel]
    have hcount := exists_other_selected_of_count (isSelectedIn s.rowsById) rowId s.rowIds hc hp
    have hsame : (∃ id ∈ s.rowIds, isSelectedIn (Obj.set s.rowsById rowId
          { row with isSelected := some (!truthy row.isSelected) }) id = true)
        ↔ ∃ id ∈ s.rowIds, id ≠ rowId ∧ isSelectedIn s.rowsById id = true := by
      constructor
      · rintro ⟨id, hid, hsid⟩
        by_cases hne : id = rowId
        · subst hne
          rw [hself, hsel] at hsid
          exact absurd hsid Bool.false_ne_true
        · exact ⟨id, hid, hne, by rwa [isSelectedIn_set_ne _ _ _ _ hne] at hsid⟩
      · rintro ⟨id, hid, hne, hsid⟩
        exact ⟨id, hid, by rwa [isSelectedIn_set_ne _ _ _ _ hne]⟩
    rw [hsel] at hsame
    rw [hsame, hcount]
    simp only [Bool.not_true, Bool.false_or, decide_eq_true_eq, selectedCount,
      Bool.false_eq_true, if_false]
    omega

theorem match_expandRow (rowId : String) (s s' : State) (hm : BatchActionsMatch s)
    (hs : handleOnExpandRow rowId s = .ok s') : BatchActionsMatch s' := by
  obtain ⟨row, hrow, hs'⟩ := handleOnExpandRow_inv rowId s s' hs
  subst hs'
  have hsame : ∀ id, isSelectedIn (Obj.set s.rowsById rowId
      { row with isExpanded := some (!truthy row.isExpanded) }) id
        = isSelectedIn s.rowsById id := by
    intro id
    by_cases hid : id = rowId
    · subst hid
      rw [isSelectedIn_set_self, isSelectedIn_of_readEntry _ _ _ hrow]
    · simp [isSelectedIn, Obj.set, hid]
  unfold BatchActionsMatch at hm ⊢
  simp only [hsame]
  exact hm

theorem step_rowIds (e : Event) (s s' : State) (hs : step e s = .ok s') :
    s'.rowIds = s.rowIds := by
  cases e with
  | selectAll =>
    exact (handleSelectAll_sameView_of_ok s s' hs).1
  | cancel =>
    simp only [step] at hs
    injection hs with hs
    subst hs
    rfl
  | selectRow rowId =>
    obtain ⟨row, _, hs'⟩ := handleOnSelectRow_inv rowId s s' hs
    subst hs'
    rfl
  | expandRow rowId =>
    obtain ⟨row, _, hs'⟩ := handleOnExpandRow_inv rowId s s' hs
    subst hs'
    rfl
  | inputValueChange value =>
    simp only [step] at hs
    injection hs with hs
    subst hs
    rfl

theorem step_match (e : Event) (s s' : State) (hm : BatchActionsMatch s)
    (ha : e.AimedAt s.rowIds) (hs : step e s = .ok s') : BatchActionsMatch s' := by
  cases e with
  | selectAll => exact match_selectAll s s' hs
  | cancel =>
    simp only [step] at hs
    injection hs with hs
    subst hs
    exact match_cancel s
  | selectRow rowId => exact match_selectRow rowId s s' ha hs
  | expandRow rowId => exact match_expandRow rowId s s' hm hs
  | inputValueChange value =>
    simp only [step] at hs
    injection hs with hs
    subst hs
    exact hm

theorem run_match (events : List Event) (s s' : State) (hm : BatchActionsMatch s)
    (ha : ∀ e ∈ events, e.AimedAt s.rowIds) (hs : run events s = .ok s') :
    BatchActionsMatch s' := by
  induction events generalizing s with
  | nil =>
    simp only [run] at hs
    injection hs with hs
    subst hs
    exact hm
  | cons e rest ih =>
    cases he : step e s with
    | error err => simp [run, he] at hs
    | ok s₁ =>
      simp only [run, he] at hs
      have hids := step_rowIds e s s₁ he
      refine ih s₁ (step_match e s s₁ hm (ha e (List.mem_cons_self e rest)) he) ?_ hs
      intro e' he'
      rw [hids]
      exact ha e' (List.mem_cons_of_mem e he')

/-- C11: the predicate "`shouldShowBatchActions` is true iff at least one row of
`rowIds` is selected" holds in every state returned by `handleSelectAll` and
by `handleOnCancel`, in every state returned by `handleOnSelectRow(rowId)` for
a `rowId` occurring exactly once in `rowIds`, and is preserved by
`handleOnExpandRow` and `handleOnInputValueChange`; hence it holds after every
sequence of these events run from a state that satisfies it. In a table state
`handleSelectAll` and such a `handleOnSelectRow` do return, and
`getBatchActionProps` hands the flag and the number of selected rows on. -/
theorem batchActions_invariant :
    (∀ s s', handleSelectAll s = .ok s' → BatchActionsMatch s') ∧
    (∀ s, BatchActionsMatch (handleOnCancel s)) ∧
    (∀ rowId s s', s.rowIds.count rowId = 1 → handleOnSelectRow rowId s = .ok s' →
      BatchActionsMatch s') ∧
    (∀ rowId s s', BatchActionsMatch s → handleOnExpandRow rowId s = .ok s' →
      BatchActionsMatch s') ∧
    (∀ value s, BatchActionsMatch s → BatchActionsMatch (handleOnInputValueChange value s)) ∧
    (∀ events s s', BatchActionsMatch s → (∀ e ∈ events, e.AimedAt s.rowIds) →
      run events s = .ok s' → BatchActionsMatch s') ∧
    (∀ s, HasAllRows s → ∃ s', handleSelectAll s = .ok s' ∧ BatchActionsMatch s') ∧
    (∀ rowId s, HasAllRows s → s.rowIds.count rowId = 1 →
      ∃ s', handleOnSelectRow rowId s = .ok s' ∧ BatchActionsMatch s') ∧
    (∀ s props, HasAllRows s → ∃ o, getBatchActionProps s props = .ok o ∧
      o "shouldShowBatchActions" = some (.value (.bool s.shouldShowBatchActions)) ∧
      o "totalSelected" = some (.value (.number (selectedCount s)))) := by
  refine ⟨match_selectAll, match_cancel, match_selectRow, match_expandRow,
    fun _ _ hm => hm, run_match, ?_, ?_, ?_⟩
  · intro s h
    exact ⟨_, handleSelectAll_ok s h, match_selectAll s _ (handleSelectAll_ok s h)⟩
  · intro rowId s h hc
    have hmem : rowId ∈ s.rowIds := List.count_pos_iff.mp (by omega)
    obtain ⟨row, hrow⟩ := Option.isSome_iff_exists.mp (h rowId hmem)
    exact ⟨_, handleOnSelectRow_ok s rowId row h hrow,
      match_selectRow rowId s _ hc (handleOnSelectRow_ok s rowId row h hrow)⟩
  · intro s props h
    simp only [getBatchActionProps, getSelectedRows_ok s h]
    refine ⟨_, rfl, ?_, ?_⟩
    · simp [Obj.set]
    · simp [Obj.set, selectedCount]

/-- C11, evaluated: a run of six events from the sample table, whose flag
agrees with its selection, ends in a state where they still agree. -/
theorem batchActions_invariant_witness :
    ∃ s', run [.selectRow "a", .expandRow "b", .selectAll, .inputValueChange (.string "x"),
        .selectRow "c", .cancel] (sampleState false true false true) = .ok s' ∧
      BatchActionsMatch s' := by
  have hrun : ∃ s', run [.selectRow "a", .expandRow "b", .selectAll,
      .inputValueChange (.string "x"), .selectRow "c", .cancel]
      (sampleState false true false true) = .ok s' := ⟨_, rfl⟩
  obtain ⟨s', hs'⟩ := hrun
  exact ⟨s', hs', batchActions_invariant.2.2.2.2.2.1 _ _ s' (by decide) (by decide) hs'⟩

/-! ## Toggling a missing row -/

/-- C12, refuted as stated: `constructor` has no entry in the `rowsById` of the
sample table, yet `handleOnSelectRow("constructor")` and
`handleOnExpandRow("constructor")` raise nothing and return a state with a new
entry under that key, because the read finds the member every plain object
inherits. -/
theorem toggle_inherited_name_creates_entry :
    (sampleState false true false true).rowsById "constructor" = none ∧
    (∃ s', handleOnSelectRow "constructor" (sampleState false true false true) = .ok s' ∧
      s'.rowsById "constructor"
        = some { id := none, isSelected := some true, isExpanded := none } ∧
      s'.shouldShowBatchActions = true) ∧
    (∃ s', handleOnExpandRow "constructor" (sampleState false true false true) = .ok s' ∧
      s'.rowsById "constructor"
        = some { id := none, isSelected := none, isExpanded := some true }) ∧
    handleOnSelectRow "constructor" (sampleState false true false true)
      ≠ .error .typeError ∧
    handleOnExpandRow "constructor" (sampleState false true false true)
      ≠ .error .typeError := by
  have hsel : ∃ s', handleOnSelectRow "constructor" (sampleState false true false true)
      = .ok s' ∧
      s'.rowsById "constructor"
        = some { id := none, isSelected := some true, isExpanded := none } ∧
      s'.shouldShowBatchActions = true := ⟨_, rfl, by decide, by decide⟩
  have hexp : ∃ s', handleOnExpandRow "constructor" (sampleState false true false true)
      = .ok s' ∧
      s'.rowsById "constructor"
        = some { id := none, isSelected := none, isExpanded := some true } :=
    ⟨_, rfl, by decide⟩
  refine ⟨by decide, hsel, hexp, ?_, ?_⟩
  · obtain ⟨s', hs', _⟩ := hsel
    rw [hs']
    exact fun hne => Except.noConfusion hne
  · obtain ⟨s', hs', _⟩ := hexp
    rw [hs']
    exact fun hne => Except.noConfusion hne

/-- C12, amended: for a `rowId` that has no entry in `rowsById` and is not the
name of a member inherited from `Object.prototype`, so that the read of it
gives `undefined`, the updaters of `handleOnSelectRow(rowId)` and of
`handleOnExpandRow(rowId)` both raise a `TypeError` before they return any
partial state: the handlers fail and no entry is created. -/
theorem toggle_missing_row_fails (s : State) (rowId : String)
    (hno : s.rowsById rowId = none) (hown : rowId ∉ objectPrototypeKeys) :
    handleOnSelectRowUpdater rowId s = .error .typeError ∧
    handleOnExpandRowUpdater rowId s = .error .typeError ∧
    handleOnSelectRow rowId s = .error .typeError ∧
    handleOnExpandRow rowId s = .error .typeError := by
  have hread : readEntry s.rowsById rowId = none := by
    simp only [readEntry, hno, hown, if_false]
  have hselU : handleOnSelectRowUpdater rowId s = .error .typeError := by
    unfold handleOnSelectRowUpdater
    cases hf : filterE (readIsSelected s.rowsById) s.rowIds with
    | error e => cases e; rfl
    | ok sel => simp only [hread]
  have hexpU : handleOnExpandRowUpdater rowId s = .error .typeError := by
    simp only [handleOnExpandRowUpdater, hread]
  refine ⟨hselU, hexpU, ?_, ?_⟩
  · simp only [handleOnSelectRow, hselU]
  · simp only [handleOnExpandRow, hexpU]

/-- C12, evaluated: the sample table has no row `z`, and `z` names nothing a
plain object inherits. -/
theorem toggle_missing_row_fails_witness :
    handleOnSelectRow "z" (sampleState false true false true) = .error .typeError ∧
    handleOnExpandRow "z" (sampleState false true false true) = .error .typeError :=
  ⟨(toggle_missing_row_fails (sampleState false true false true) "z" (by decide)
      (by decide)).2.2.1,
   (toggle_missing_row_fails (sampleState false true false true) "z" (by decide)
      (by decide)).2.2.2⟩

theorem getSelectionProps_ok_none (props : Props) (instanceId : String) (s : State)
    (h : HasAllRows s) :
    ∃ p, getSelectionProps props instanceId s none = .ok p ∧
      p.id = getTablePrefix instanceId ++ "__select-all" ∧
      p.checked = some (decide ((s.rowIds.length : Int) > 0) &&
        decide (((s.rowIds.filter (isSelectedIn s.rowsById)).length : Int) = s.rowIds.length)) ∧
      p.ariaLabel = props.translateWithId
        (if (decide ((s.rowIds.length : Int) > 0) &&
            decide (((s.rowIds.filter (isSelectedIn s.rowsById)).length : Int)
              = s.rowIds.length)) = true
          then translationKeys.unselectAll else translationKeys.selectAll) := by
  simp only [getSelectionProps, getSelectedRows_ok s h]
  exact ⟨_, rfl, rfl, rfl, rfl⟩

/-! ## External updates -/

/-- C13: `UNSAFE_componentWillReceiveProps` issues exactly one state transition,
`state => getDerivedStateFromProps(nextProps, state)`, when the ordered row
identifiers changed, or the ordered header keys changed, or the rows are not
deeply equal to the previous rows, and it issues none otherwise. -/
theorem componentWillReceiveProps_transition (isEqual : List Row → List Row → Bool)
    (thisProps nextProps : TableProps) :
    (UNSAFE_componentWillReceiveProps isEqual thisProps nextProps
        = [{ nextProps := nextProps }] ↔ DetectableChange isEqual thisProps nextProps) ∧
    (UNSAFE_componentWillReceiveProps isEqual thisProps nextProps = []
        ↔ ¬ DetectableChange isEqual thisProps nextProps) ∧
    (∀ derive s, DetectableChange isEqual thisProps nextProps →
      applyDerivedStateCalls derive
        (UNSAFE_componentWillReceiveProps isEqual thisProps nextProps) s
        = derive nextProps s) ∧
    (∀ derive s, ¬ DetectableChange isEqual thisProps nextProps →
      applyDerivedStateCalls derive
        (UNSAFE_componentWillReceiveProps isEqual thisProps nextProps) s = s) := by
  have hyes : DetectableChange isEqual thisProps nextProps →
      UNSAFE_componentWillReceiveProps isEqual thisProps nextProps
        = [{ nextProps := nextProps }] := by
    intro hd
    unfold UNSAFE_componentWillReceiveProps
    by_cases h1 : thisProps.rows.map (fun row => row.id)
        = nextProps.rows.map (fun row => row.id)
    · by_cases h2 : thisProps.headers.map (fun header => header.key)
          = nextProps.headers.map (fun header => header.key)
      · rcases hd with hd | hd | hd
        · exact absurd h1 hd
        · exact absurd h2 hd
        · simp [h1, h2, hd]
      · simp [h1, h2]
    · simp [h1]
  have hno : ¬ DetectableChange isEqual thisProps nextProps →
      UNSAFE_componentWillReceiveProps isEqual thisProps nextProps = [] := by
    intro hd
    unfold DetectableChange at hd
    push_neg at hd
    obtain ⟨h1, h2, h3⟩ := hd
    have h3' : isEqual thisProps.rows nextProps.rows = true := by
      cases hv : isEqual thisProps.rows nextProps.rows
      · exact absurd hv h3
      · rfl
    unfold UNSAFE_componentWillReceiveProps
    simp [h1, h2, h3']
  refine ⟨⟨?_, hyes⟩, ⟨?_, hno⟩, ?_, ?_⟩
  · intro hcalls
    by_contra hd
    rw [hno hd] at hcalls
    cases hcalls
  · intro hcalls hd
    rw [hyes hd] at hcalls
    cases hcalls
  · intro derive s hd
    rw [hyes hd]
    rfl
  · intro derive s hd
    rw [hno hd]
    rfl

/-! ## Handlers attached by the accessors -/

theorem getBatchActionProps_onCancel (s : State) (props : Obj PropValue) (h : HasAllRows s) :
    handlerAt (getBatchActionProps s props) "onCancel" = some (.single .handleOnCancel) := by
  simp only [getBatchActionProps, getSelectedRows_ok s h, handlerAt, Obj.set]
  rfl

/-- C14, at the failing input: for the argument whose `onCancel` is the
consumer's handler, the `onCancel` that `getBatchActionProps` returns is
`handleOnCancel` alone; invoking it runs `handleOnCancel` and never the
consumer's handler. -/
theorem getBatchActionProps_drops_caller_onCancel :
    handlerAt (getBatchActionProps (sampleState false true false true) sampleBatchActionArg)
        "onCancel" = some (.single .handleOnCancel) ∧
    (Handler.single Fn.handleOnCancel).invoke = [Fn.handleOnCancel] ∧
    Fn.caller sampleCallerHandler ∉ (Handler.single Fn.handleOnCancel).invoke := by
  refine ⟨getBatchActionProps_onCancel _ _ (by decide), rfl, by decide⟩

theorem runHandlers_pair (internal : Fn) (onClick : Option CallerHandler)
    (h : internal.signalsCancellation = false) :
    (composeEventHandlers [some internal, onClick.map Fn.caller]).invoke
      = internal :: (onClick.map Fn.caller).toList := by
  cases onClick with
  | none => simp [composeEventHandlers, Handler.invoke, runHandlers, h]
  | some c =>
    have hc : (Fn.caller c).signalsCancellation = c.cancels := rfl
    simp only [composeEventHandlers, Handler.invoke, runHandlers, h, hc, Option.map_some',
      Option.toList_some]
    cases c.cancels <;> simp

/-- C15: the handler under `onClick` of `getHeaderProps`, under `onExpand` of
`getRowProps` and under `onSelect` of `getSelectionProps` is the composition of
the ordered list made of the bound sort, expand or select handler and the
consumer's `onClick`. Invoking it runs the bound handler and then the
consumer's `onClick`; with no `onClick` the bound handler alone runs. The
consumer's `onClick` is not handed on as it came: `getRowProps` and
`getSelectionProps` return no `onClick` key, and the `onClick` of
`getHeaderProps` is the composition. -/
theorem accessors_compose_onClick (props : Props) (instanceId : String) (state : State)
    (header : Header) (row : RowMeta) (onClick : Option CallerHandler)
    (rest : Obj PropValue) :
    (getHeaderProps state header onClick rest "onClick"
      = some (.handler (composeEventHandlers
          [some (.handleSortBy header.key), onClick.map Fn.caller])) ∧
     (composeEventHandlers [some (.handleSortBy header.key), onClick.map Fn.caller]).invoke
      = Fn.handleSortBy header.key :: (onClick.map Fn.caller).toList ∧
     ∀ c, getHeaderProps state header onClick rest "onClick"
      ≠ some (.handler (.single (.caller c)))) ∧
    (getRowProps props row onClick rest "onExpand"
      = some (.handler (composeEventHandlers
          [some (.handleOnExpandRow (templateText row.id)), onClick.map Fn.caller])) ∧
     (composeEventHandlers
        [some (.handleOnExpandRow (templateText row.id)), onClick.map Fn.caller]).invoke
      = Fn.handleOnExpandRow (templateText row.id) :: (onClick.map Fn.caller).toList ∧
     getRowProps props row onClick rest "onClick" = none) ∧
    (∃ o, getSelectionPropsObject props instanceId state onClick (some row) rest = .ok o ∧
      o "onSelect" = some (.handler (composeEventHandlers
          [some (.handleOnSelectRow (templateText row.id)), onClick.map Fn.caller])) ∧
      (composeEventHandlers
        [some (.handleOnSelectRow (templateText row.id)), onClick.map Fn.caller]).invoke
        = Fn.handleOnSelectRow (templateText row.id) :: (onClick.map Fn.caller).toList ∧
      o "onClick" = none) ∧
    (HasAllRows state →
      ∃ o, getSelectionPropsObject props instanceId state onClick none rest = .ok o ∧
        o "onSelect" = some (.handler (composeEventHandlers
            [some .handleSelectAll, onClick.map Fn.caller])) ∧
        (composeEventHandlers [some .handleSelectAll, onClick.map Fn.caller]).invoke
          = Fn.handleSelectAll :: (onClick.map Fn.caller).toList ∧
        o "onClick" = none) := by
  refine ⟨⟨?_, runHandlers_pair _ _ rfl, ?_⟩, ⟨?_, runHandlers_pair _ _ rfl, ?_⟩, ?_, ?_⟩
  · simp [getHeaderProps, Obj.set]
  · intro c
    simp [getHeaderProps, Obj.set, composeEventHandlers]
  · simp [getRowProps, Obj.set]
  · simp [getRowProps, Obj.set, Obj.erase]
  · refine ⟨_, rfl, ?_, runHandlers_pair _ _ rfl, ?_⟩
    · simp [Obj.set]
    · simp [Obj.set, Obj.erase]
  · intro h
    obtain ⟨p, hp, _⟩ := getSelectionProps_ok_none props instanceId state h
    simp only [getSelectionPropsObject, hp]
    refine ⟨_, rfl, ?_, runHandlers_pair _ _ rfl, ?_⟩
    · simp [Obj.set]
    · simp [Obj.set, Obj.erase]

/-- C15, evaluated: with a consumer `onClick` on row `b` of the sample table,
invoking the returned `onSelect` runs `handleOnSelectRow("b")` and then the
consumer's handler. -/
theorem accessors_compose_onClick_witness :
    ∃ h, handlerAt (getSelectionPropsObject sampleProps "7" (sampleState false true false true)
        (some sampleCallerHandler) (some (mkRow "b" true false)) Obj.empty) "onSelect" = some h ∧
      h.invoke = [Fn.handleOnSelectRow "b", Fn.caller sampleCallerHandler] := by
  obtain ⟨_, _, ⟨o, ho, hsel, hinv, _⟩, _⟩ :=
    accessors_compose_onClick sampleProps "7" (sampleState false true false true)
      { key := "text", header := "Text" } (mkRow "b" true false) (some sampleCallerHandler)
      Obj.empty
  refine ⟨_, ?_, hinv⟩
  simp only [ho, handlerAt, hsel]

/-! ## Identifiers and labels of the selection controls -/

theorem string_append_left_cancel (p a b : String) (h : p ++ a = p ++ b) : a = b := by
  have hd := congrArg String.data h
  simp only [String.data_append, List.append_cancel_left_eq] at hd
  exact String.ext hd

theorem select_row_ne_select_all (p x : String) :
    p ++ "__select-row-" ++ x ≠ p ++ "__select-all" := by
  intro h
  have hd := congrArg String.data h
  simp only [String.data_append, List.append_assoc, List.append_cancel_left_eq] at hd
  simp at hd

/-- C16: for a fixed `instanceId`, `getSelectionProps` returns the id
`data-table-<instanceId>__select-row-<rowId>` for a row and
`data-table-<instanceId>__select-all` for the select-all control; the id is
the same whatever the props and the state, two distinct row ids give two
distinct ids, and no row gets the select-all id. -/
theorem selection_ids (props props' : Props) (instanceId : String) (s s' : State)
    (r r' : RowMeta) :
    selectionIdOf (getSelectionProps props instanceId s (some r))
      = some ("data-table-" ++ instanceId ++ "__select-row-" ++ templateText r.id) ∧
    (HasAllRows s → selectionIdOf (getSelectionProps props instanceId s none)
      = some ("data-table-" ++ instanceId ++ "__select-all")) ∧
    (r.id = r'.id → selectionIdOf (getSelectionProps props instanceId s (some r))
      = selectionIdOf (getSelectionProps props' instanceId s' (some r'))) ∧
    (HasAllRows s → HasAllRows s' → selectionIdOf (getSelectionProps props instanceId s none)
      = selectionIdOf (getSelectionProps props' instanceId s' none)) ∧
    (∀ a b, r.id = some a → r'.id = some b → a ≠ b →
      selectionIdOf (getSelectionProps props instanceId s (some r))
        ≠ selectionIdOf (getSelectionProps props' instanceId s' (some r'))) ∧
    (HasAllRows s' → selectionIdOf (getSelectionProps props instanceId s (some r))
      ≠ selectionIdOf (getSelectionProps props' instanceId s' none)) := by
  have hrow : ∀ (q : Props) (t : State) (x : RowMeta),
      selectionIdOf (getSelectionProps q instanceId t (some x))
        = some ("data-table-" ++ instanceId ++ "__select-row-" ++ templateText x.id) :=
    fun _ _ _ => rfl
  have hall : ∀ (q : Props) (t : State), HasAllRows t →
      selectionIdOf (getSelectionProps q instanceId t none)
        = some ("data-table-" ++ instanceId ++ "__select-all") := by
    intro q t ht
    obtain ⟨p, hp, hid, _⟩ := getSelectionProps_ok_none q instanceId t ht
    rw [hp]
    simp only [selectionIdOf, hid, getTablePrefix]
  refine ⟨hrow _ _ _, hall _ _, ?_, ?_, ?_, ?_⟩
  · intro hid
    rw [hrow, hrow, hid]
  · intro h h'
    rw [hall _ _ h, hall _ _ h']
  · intro a b ha hb hne heq
    rw [hrow, hrow, ha, hb] at heq
    exact hne (string_append_left_cancel _ _ _ (Option.some.inj heq))
  · intro h' heq
    rw [hrow, hall _ _ h'] at heq
    exact select_row_ne_select_all _ _ (Option.some.inj heq)

/-- C16, evaluated: on the sample table with instance id `7` the select-all
control gets the id `data-table-7__select-all`. -/
theorem selection_ids_witness :
    selectionIdOf (getSelectionProps sampleProps "7" (sampleState false true false true) none)
      = some "data-table-7__select-all" :=
  (selection_ids sampleProps sampleProps "7" (sampleState false true false true)
    (sampleState false true false true) (mkRow "a" false false)
    (mkRow "b" true false)).2.1 (by decide)

/-- C17: every derived ARIA label is `translateWithId` applied to the key of
the action the control performs next: `getRowProps` uses the collapse key iff
the row is expanded, else the expand key; `getSelectionProps` for a row uses
the unselect-row key iff the row is selected, else the select-row key, and
without a row the unselect-all key iff the computed `checked` is true, else the
select-all key. The default `translateWithId` maps the six keys to
`Collapse current row`, `Expand current row`, `Unselect row`, `Select row`,
`Unselect all rows` and `Select all rows`. -/
theorem aria_labels (props : Props) (instanceId : String) (s : State) (row : RowMeta)
    (onClick : Option CallerHandler) (rest : Obj PropValue) :
    getRowProps props row onClick rest "ariaLabel"
      = some (.value (optString (props.translateWithId
          (if truthy row.isExpanded then translationKeys.collapseRow
           else translationKeys.expandRow)))) ∧
    (∃ p, getSelectionProps props instanceId s (some row) = .ok p ∧
      p.ariaLabel = props.translateWithId
        (if truthy row.isSelected then translationKeys.unselectRow
         else translationKeys.selectRow)) ∧
    (HasAllRows s → ∃ p, getSelectionProps props instanceId s none = .ok p ∧
      p.ariaLabel = props.translateWithId
        (if p.checked = some true then translationKeys.unselectAll
         else translationKeys.selectAll)) ∧
    translateWithId translationKeys.collapseRow = some "Collapse current row" ∧
    translateWithId translationKeys.expandRow = some "Expand current row" ∧
    translateWithId translationKeys.unselectRow = some "Unselect row" ∧
    translateWithId translationKeys.selectRow = some "Select row" ∧
    translateWithId translationKeys.unselectAll = some "Unselect all rows" ∧
    translateWithId translationKeys.selectAll = some "Select all rows" := by
  refine ⟨?_, ⟨_, rfl, rfl⟩, ?_, by decide, by decide, by decide, by decide, by decide,
    by decide⟩
  · simp [getRowProps, Obj.set]
  · intro h
    obtain ⟨p, hp, _, hchk, hlabel⟩ := getSelectionProps_ok_none props instanceId s h
    refine ⟨p, hp, ?_⟩
    rw [hlabel, hchk]
    simp only [Option.some.injEq]

/-- C17, evaluated: with the default translations, the select-all control of
the fully selected sample table is labelled `Unselect all rows`. -/
theorem aria_labels_witness :
    ∃ p, getSelectionProps { sampleProps with translateWithId := translateWithId } "7"
        (sampleState true true true true) none = .ok p ∧
      p.ariaLabel = some "Unselect all rows" := by
  obtain ⟨_, _, hall, _, _, _, _, hun, _⟩ :=
    aria_labels { sampleProps with translateWithId := translateWithId } "7"
      (sampleState true true true true) (mkRow "a" true false) none Obj.empty
  obtain ⟨p, hp, hlabel⟩ := hall (by decide)
  have hchk : p.checked = some true := by
    have h2 : getSelectionProps { sampleProps with translateWithId := translateWithId } "7"
        (sampleState true true true true) none = .ok _ := rfl
    rw [hp] at h2
    injection h2 with h2
    rw [h2]
    rfl
  refine ⟨p, hp, ?_⟩
  rw [hlabel, if_pos hchk]
  exact hun

/-! ## Toggling a row twice -/

theorem State.eq_of_fields (a b : State) (h1 : a.rowIds = b.rowIds)
    (h2 : a.rowsById = b.rowsById) (h3 : a.cellsById = b.cellsById)
    (h4 : a.sortHeaderKey = b.sortHeaderKey) (h5 : a.sortDirection = b.sortDirection)
    (h6 : a.filterInputValue = b.filterInputValue)
    (h7 : a.shouldShowBatchActions = b.shouldShowBatchActions) : a = b := by
  cases a
  cases b
  simp only at h1 h2 h3 h4 h5 h6 h7
  subst h1 h2 h3 h4 h5 h6 h7
  rfl

/-- C20: in a table state, for a `rowId` whose entry has a boolean
`isSelected`, applying `handleOnSelectRow(rowId)` twice gives back a `rowsById`
equal to the original at every key; and when `rowIds` are pairwise distinct,
`rowId` is in `rowIds` and the original flag agreed with the selection, the
whole state after the two toggles is the original state. -/
theorem handleOnSelectRow_involution (s : State) (rowId : String) (row : RowMeta)
    (h : HasAllRows s) (hrow : s.rowsById rowId = some row)
    (hb : row.isSelected.isSome = true) :
    ∃ s₁ s₂, handleOnSelectRow rowId s = .ok s₁ ∧ handleOnSelectRow rowId s₁ = .ok s₂ ∧
      (∀ id, s₂.rowsById id = s.rowsById id) ∧
      (s.rowIds.Nodup → rowId ∈ s.rowIds → BatchActionsMatch s → s₂ = s) := by
  obtain ⟨b, hbsel⟩ := Option.isSome_iff_exists.mp hb
  have hs₁ := handleOnSelectRow_ok s rowId row h hrow
  generalize hgen : ({ s with
      shouldShowBatchActions :=
        (!truthy row.isSelected ||
          decide ((if !truthy row.isSelected then (selectedCount s : Int) + 1
            else (selectedCount s : Int) - 1) > 0))
      rowsById := Obj.set s.rowsById rowId
        { row with isSelected := some (!truthy row.isSelected) } } : State) = s₁ at hs₁
  have hids₁ : s₁.rowIds = s.rowIds := by rw [← hgen]
  have hrb₁ : s₁.rowsById = Obj.set s.rowsById rowId
      { row with isSelected := some (!truthy row.isSelected) } := by rw [← hgen]
  have hframe₁ : s₁.cellsById = s.cellsById ∧ s₁.sortHeaderKey = s.sortHeaderKey ∧
      s₁.sortDirection = s.sortDirection ∧ s₁.filterInputValue = s.filterInputValue := by
    rw [← hgen]
    exact ⟨rfl, rfl, rfl, rfl⟩
  have hall₁ : HasAllRows s₁ := by
    intro id hid
    rw [hids₁] at hid
    rw [hrb₁]
    by_cases hne : id = rowId
    · simp [Obj.set, hne]
    · simpa [Obj.set, hne] using h id hid
  have hrow₁ : s₁.rowsById rowId
      = some { row with isSelected := some (!truthy row.isSelected) } := by
    rw [hrb₁]
    simp [Obj.set]
  have hs₂ := handleOnSelectRow_ok s₁ rowId _ hall₁ hrow₁
  have hback : ∀ id, (Obj.set s₁.rowsById rowId
      { ({ row with isSelected := some (!truthy row.isSelected) } : RowMeta) with
        isSelected := some (!truthy
          ({ row with isSelected := some (!truthy row.isSelected) } : RowMeta).isSelected) }) id
        = s.rowsById id := by
    intro id
    by_cases hne : id = rowId
    · subst hne
      rw [hrow]
      cases row with
      | mk rid rsel rexp =>
        simp only at hbsel
        subst hbsel
        simp [Obj.set, truthy]
    · rw [hrb₁]
      simp [Obj.set, hne]
  refine ⟨s₁, _, hs₁, hs₂, hback, ?_⟩
  intro hnd hmem hm
  have hc : s₁.rowIds.count rowId = 1 := by
    rw [hids₁]
    exact List.count_eq_one_of_mem hnd hmem
  have hm₂ := match_selectRow rowId s₁ _ hc hs₂
  apply State.eq_of_fields
  · exact hids₁
  · exact funext hback
  · exact hframe₁.1
  · exact hframe₁.2.1
  · exact hframe₁.2.2.1
  · exact hframe₁.2.2.2
  · rw [Bool.eq_iff_iff]
    unfold BatchActionsMatch at hm hm₂
    rw [hm₂, hm]
    have hrb₂ : ∀ id, isSelectedIn (Obj.set s₁.rowsById rowId
        { ({ row with isSelected := some (!truthy row.isSelected) } : RowMeta) with
          isSelected := some (!truthy
            ({ row with isSelected := some (!truthy row.isSelected) } : RowMeta).isSelected) }) id
          = isSelectedIn s.rowsById id := by
      intro id
      simp only [isSelectedIn, hback id]
    simp only [hrb₂]
    show (∃ id ∈ s₁.rowIds, _) ↔ _
    rw [hids₁]

/-- C20, evaluated: selecting and unselecting row `a` of the sample table,
whose flag agrees with its selection, gives the sample table back. -/
theorem handleOnSelectRow_involution_witness :
    ∃ s₁ s₂, handleOnSelectRow "a" (sampleState false true false true) = .ok s₁ ∧
      handleOnSelectRow "a" s₁ = .ok s₂ ∧ s₂ = sampleState false true false true := by
  obtain ⟨s₁, s₂, h₁, h₂, _, hwhole⟩ :=
    handleOnSelectRow_involution (sampleState false true false true) "a"
      (mkRow "a" false false) (by decide) (by decide) (by decide)
  exact ⟨s₁, s₂, h₁, h₂, hwhole (by decide) (by decide) (by decide)⟩

/-! ## The aggregate around select-all, cancel and the filter -/

theorem getSelectionProps_none_spec (props : Props) (instanceId : String) (s : State)
    (h : HasAllRows s) :
    ∃ p, getSelectionProps props instanceId s none = .ok p ∧
      p.checked = some (decide (0 < s.rowIds.length ∧ selectedCount s = s.rowIds.length)) ∧
      p.indeterminate
        = some (decide (0 < selectedCount s ∧ selectedCount s < s.rowIds.length)) := by
  have hle := selectedCount_le s
  have hc : (decide ((s.rowIds.length : Int) > 0)
        && decide (((s.rowIds.filter (isSelectedIn s.rowsById)).length : Int) = s.rowIds.length))
      = decide (0 < s.rowIds.length ∧ selectedCount s = s.rowIds.length) := by
    rw [Bool.eq_iff_iff]
    simp only [Bool.and_eq_true, decide_eq_true_eq, selectedCount]
    omega
  have hi : (decide ((s.rowIds.length : Int) > 0)
        && decide (((s.rowIds.filter (isSelectedIn s.rowsById)).length : Int) > 0)
        && decide (((s.rowIds.filter (isSelectedIn s.rowsById)).length : Int) ≠ s.rowIds.length))
      = decide (0 < selectedCount s ∧ selectedCount s < s.rowIds.length) := by
    rw [Bool.eq_iff_iff]
    simp only [Bool.and_eq_true, decide_eq_true_eq, selectedCount] at hle ⊢
    omega
  simp only [getSelectionProps, getSelectedRows_ok s h, hc, hi]
  exact ⟨_, rfl, rfl, rfl⟩

theorem selectedCount_uniform (s : State) (b : Bool)
    (hu : ∀ id ∈ s.rowIds, isSelectedIn s.rowsById id = b) :
    selectedCount s = if b = true then s.rowIds.length else 0 := by
  unfold selectedCount
  cases b with
  | true =>
    rw [List.filter_eq_self.mpr (fun id hid => hu id hid)]
    rfl
  | false =>
    have hnil : s.rowIds.filter (isSelectedIn s.rowsById) = [] := by
      rw [List.filter_eq_nil_iff]
      intro id hid
      rw [hu id hid]
      exact Bool.false_ne_true
    rw [hnil]
    rfl

theorem aggregate_uniform (props : Props) (instanceId : String) (s : State) (b : Bool)
    (h : HasAllRows s) (hu : ∀ id ∈ s.rowIds, isSelectedIn s.rowsById id = b) :
    ∃ p, getSelectionProps props instanceId s none = .ok p ∧
      p.checked = some (decide (0 < s.rowIds.length) && b) ∧
      p.indeterminate = some false := by
  obtain ⟨p, hp, hchk, hind⟩ := getSelectionProps_none_spec props instanceId s h
  have hk := selectedCount_uniform s b hu
  refine ⟨p, hp, ?_, ?_⟩
  · rw [hchk, hk]
    cases b <;> simp
    omega
  · rw [hind, hk]
    cases b <;> simp

theorem handleSelectAll_after (s s' : State) (hs : handleSelectAll s = .ok s') :
    s'.rowIds = s.rowIds ∧ HasAllRows s' ∧
      ∀ id ∈ s'.rowIds,
        isSelectedIn s'.rowsById id = decide (selectedCount s ≠ s.rowIds.length) := by
  have hrows := handleSelectAll_rowsById_of_ok s s' hs
  have hids : s'.rowIds = s.rowIds := (handleSelectAll_sameView_of_ok s s' hs).1
  refine ⟨hids, ?_, ?_⟩
  · intro id hid
    rw [hids] at hid
    rw [hrows id, if_pos hid]
    rfl
  · intro id hid
    rw [hids] at hid
    rw [isSelectedIn, hrows id, if_pos hid]
    rfl

theorem handleOnCancel_after (s : State) :
    (handleOnCancel s).rowIds = s.rowIds ∧ HasAllRows (handleOnCancel s) ∧
      ∀ id ∈ (handleOnCancel s).rowIds,
        isSelectedIn (handleOnCancel s).rowsById id = false := by
  have hrows : ∀ k, (handleOnCancel s).rowsById k
      = if k ∈ s.rowIds then some { spreadRow (s.rowsById k) with isSelected := some false }
        else none := fun k => setAll_rowsById s false _ k
  have hids : (handleOnCancel s).rowIds = s.rowIds := rfl
  refine ⟨hids, ?_, ?_⟩
  · intro id hid
    rw [hids] at hid
    rw [hrows id, if_pos hid]
    rfl
  · intro id hid
    rw [hids] at hid
    rw [isSelectedIn, hrows id, if_pos hid]
    rfl

/-- C21: in a table state, `getSelectedRows` returns the identifiers of `rowIds`
whose entry is selected, in the order of `rowIds` and each as often as it
occurs there. That list, the `selectedRows` output of `render`, the
`totalSelected` of `getBatchActionProps` and the `checked` and `indeterminate`
of the select-all control are the same whatever the `filterInputValue` and
the `filterRows` function; and `handleSelectAll` selects every row of `rowIds`,
shown by the filter or not. -/
theorem selection_ignores_filter {α : Type}
    (denormalize : List String → Obj RowMeta → Obj CellMeta → Except JSError α)
    (props props' : Props) (instanceId : String) (s : State) (v : JSValue)
    (arg : Obj PropValue) (h : HasAllRows s) :
    (getSelectedRows s = .ok (s.rowIds.filter (isSelectedIn s.rowsById)) ∧
      (s.rowIds.filter (isSelectedIn s.rowsById)).Sublist s.rowIds ∧
      ∀ id, (s.rowIds.filter (isSelectedIn s.rowsById)).count id
        = if isSelectedIn s.rowsById id = true then s.rowIds.count id else 0) ∧
    getSelectedRows { s with filterInputValue := v } = getSelectedRows s ∧
    (∀ rows selectedRows,
      denormalize (filteredRowIds props' { s with filterInputValue := v })
        s.rowsById s.cellsById = .ok rows →
      denormalize (s.rowIds.filter (isSelectedIn s.rowsById)) s.rowsById s.cellsById
        = .ok selectedRows →
      render denormalize props' { s with filterInputValue := v }
        = .ok { rows := rows, headers := props'.headers, selectedRows := selectedRows }) ∧
    propAt (getBatchActionProps { s with filterInputValue := v } arg) "totalSelected"
      = some (.value (.number (selectedCount s))) ∧
    (aggregateOf (getSelectionProps props' instanceId { s with filterInputValue := v } none)
      = aggregateOf (getSelectionProps props instanceId s none) ∧
     aggregateOf (getSelectionProps props instanceId s none)
      = some (some (decide (0 < s.rowIds.length ∧ selectedCount s = s.rowIds.length)),
              some (decide (0 < selectedCount s ∧ selectedCount s < s.rowIds.length)))) ∧
    (∃ s', handleSelectAll { s with filterInputValue := v } = .ok s' ∧
      (selectedCount s ≠ s.rowIds.length →
        ∀ id ∈ s.rowIds, isSelectedIn s'.rowsById id = true)) := by
  have h' : HasAllRows { s with filterInputValue := v } := h
  have hagg : ∀ (q : Props) (t : State), HasAllRows t →
      aggregateOf (getSelectionProps q instanceId t none)
        = some (some (decide (0 < t.rowIds.length ∧ selectedCount t = t.rowIds.length)),
                some (decide (0 < selectedCount t ∧ selectedCount t < t.rowIds.length))) := by
    intro q t ht
    obtain ⟨p, hp, hchk, hind⟩ := getSelectionProps_none_spec q instanceId t ht
    rw [hp]
    simp only [aggregateOf, hchk, hind]
  refine ⟨⟨getSelectedRows_ok s h, List.filter_sublist _, ?_⟩, rfl, ?_, ?_, ⟨?_, hagg props s h⟩,
    ?_⟩
  · intro id
    by_cases hsel : isSelectedIn s.rowsById id = true
    · rw [if_pos hsel, List.count_filter hsel]
    · rw [if_neg hsel]
      apply List.count_eq_zero_of_not_mem
      intro hmem
      exact hsel (List.mem_filter.mp hmem).2
  · intro rows selectedRows hrows hsel
    have hsr : getSelectedRows { s with filterInputValue := v }
        = .ok (s.rowIds.filter (isSelectedIn s.rowsById)) := getSelectedRows_ok s h
    simp only [render, hrows, hsr, hsel]
  · have hsr : getSelectedRows { s with filterInputValue := v }
        = .ok (s.rowIds.filter (isSelectedIn s.rowsById)) := getSelectedRows_ok s h
    simp only [getBatchActionProps, hsr, propAt]
    simp [Obj.set, selectedCount]
  · rw [hagg props' _ h', hagg props s h]
    rfl
  · have hs := handleSelectAll_ok { s with filterInputValue := v } h'
    refine ⟨_, hs, ?_⟩
    intro hne id hid
    have hrows := handleSelectAll_rowsById { s with filterInputValue := v } _ h' hs id
    have hid' : id ∈ ({ s with filterInputValue := v } : State).rowIds := hid
    have hne' : selectedCount ({ s with filterInputValue := v } : State)
        ≠ ({ s with filterInputValue := v } : State).rowIds.length := hne
    rw [isSelectedIn, hrows, if_pos hid']
    simp [truthy, hne']

/-- C21, evaluated: with the filter text `x` and a `filterRows` that hides every
row, the selected rows of the sample table are still `b`, and select-all
still selects the hidden row `a`. -/
theorem selection_ignores_filter_witness :
    filteredRowIds sampleProps
        { sampleState false true false true with filterInputValue := .string "x" } = [] ∧
    getSelectedRows { sampleState false true false true with filterInputValue := .string "x" }
      = .ok ["b"] ∧
    ∃ s', handleSelectAll
        { sampleState false true false true with filterInputValue := .string "x" } = .ok s' ∧
      isSelectedIn s'.rowsById "a" = true := by
  obtain ⟨⟨_, _, _⟩, hsame, _, _, _, s', hs', hall⟩ :=
    selection_ignores_filter sampleDenormalize sampleProps sampleProps "7"
      (sampleState false true false true) (.string "x") Obj.empty (by decide)
  refine ⟨rfl, ?_, s', hs', hall (by decide) "a" (by decide)⟩
  rw [hsame]
  rfl

/-- C22: in a table state with at least one row, `handleSelectAll` negates the
`checked` value `getSelectionProps` computes for the select-all control, and
with zero rows `checked` is false before and after; in every state
`handleSelectAll` returns, and in the state `handleOnCancel` yields from any
state, the control is not indeterminate. -/
theorem selectAll_negates_checked (props : Props) (instanceId : String) :
    (∀ s, HasAllRows s →
      ∃ p s' p' b, getSelectionProps props instanceId s none = .ok p ∧
        handleSelectAll s = .ok s' ∧
        getSelectionProps props instanceId s' none = .ok p' ∧
        p.checked = some b ∧
        (0 < s.rowIds.length → p'.checked = some (!b)) ∧
        (s.rowIds.length = 0 → b = false ∧ p'.checked = some false) ∧
        p'.indeterminate = some false) ∧
    (∀ s s', handleSelectAll s = .ok s' →
      ∃ p', getSelectionProps props instanceId s' none = .ok p' ∧
        p'.indeterminate = some false) ∧
    (∀ s, ∃ p', getSelectionProps props instanceId (handleOnCancel s) none = .ok p' ∧
      p'.indeterminate = some false ∧ p'.checked = some false) := by
  refine ⟨?_, ?_, ?_⟩
  · intro s h
    obtain ⟨p, hp, hchk, _⟩ := getSelectionProps_none_spec props instanceId s h
    have hs := handleSelectAll_ok s h
    generalize setState s _ = s' at hs
    obtain ⟨hids, hall', hu⟩ := handleSelectAll_after s s' hs
    obtain ⟨p', hp', hchk', hind'⟩ := aggregate_uniform props instanceId s' _ hall' hu
    refine ⟨p, s', p', _, hp, hs, hp', hchk, ?_, ?_, hind'⟩
    · intro hpos
      rw [hchk', hids]
      by_cases hk : selectedCount s = s.rowIds.length
      · simp [hpos, hk]
      · simp [hpos, hk]
    · intro hzero
      rw [hchk', hids]
      constructor
      · simp [hzero]
      · simp [hzero]
  · intro s s' hs
    obtain ⟨_, hall', hu⟩ := handleSelectAll_after s s' hs
    obtain ⟨p', hp', _, hind'⟩ := aggregate_uniform props instanceId s' _ hall' hu
    exact ⟨p', hp', hind'⟩
  · intro s
    obtain ⟨_, hall', hu⟩ := handleOnCancel_after s
    obtain ⟨p', hp', hchk', hind'⟩ :=
      aggregate_uniform props instanceId (handleOnCancel s) false hall' hu
    refine ⟨p', hp', hind', ?_⟩
    rw [hchk']
    simp

/-- C22, evaluated: the sample table with only `b` selected is unchecked, and
checked once `handleSelectAll` has run. -/
theorem selectAll_negates_checked_witness :
    ∃ p s' p', getSelectionProps sampleProps "7" (sampleState false true false true) none = .ok p ∧
      handleSelectAll (sampleState false true false true) = .ok s' ∧
      getSelectionProps sampleProps "7" s' none = .ok p' ∧
      p.checked = some false ∧ p'.checked = some true ∧ p'.indeterminate = some false := by
  obtain ⟨p, s', p', b, hp, hs', hp', hb, hneg, _, hind⟩ :=
    (selectAll_negates_checked sampleProps "7").1 (sampleState false true false true)
      (by decide)
  have hpb : p.checked = some false := by
    have h2 : getSelectionProps sampleProps "7" (sampleState false true false true) none
        = .ok _ := rfl
    rw [hp] at h2
    injection h2 with h2
    rw [h2]
    rfl
  have hbf : b = false := by
    rw [hpb] at hb
    exact (Option.some.inj hb).symm
  refine ⟨p, s', p', hp, hs', hp', hpb, ?_, hind⟩
  rw [hneg (by decide), hbf]
  rfl

end DataTable

namespace Slider

/-! ## Bounds of the value -/

theorem clamp_within_bounds (props : Props) (c : Calc) (h : props.min < props.max) :
    props.min ≤ (clamp props c).newValue.val ∧ (clamp props c).newValue.val ≤ props.max := by
  unfold clamp
  by_cases h₁ : c.newValue.val ≤ props.min
  · have h₂ : ¬ props.min ≥ props.max := not_le.mpr h
    simp [h₁, num, h₂, le_of_lt h]
  · by_cases h₂ : c.newValue.val ≥ props.max
    · simp [h₁, h₂, num, le_of_lt h]
    · simp only [h₁, h₂, if_false]
      exact ⟨le_of_lt (not_le.mp h₁), le_of_lt (not_le.mp h₂)⟩

theorem calcValue_within_bounds (track : Track) (evt : Option Event) (prevState : State)
    (props : Props) (h : props.min < props.max) :
    props.min ≤ (calcValue track evt prevState props).newValue.val ∧
      (calcValue track evt prevState props).newValue.val ≤ props.max :=
  clamp_within_bounds props _ h

/-- C18, at the failing input: on a slider from 0 to 100 standing at 50, a
change of the text input to `1000` completes with `calcValue` clamping its own
result to the maximum 100 and the position to 100, and yet with the value 1000
stored in the state and handed to `onChange`, above the maximum. -/
theorem textInput_value_exceeds_max :
    (calcValue sampleTrack (some typed1000)
        { sampleState with dragging := true, value := { val := 1000, isString := true } }
        sampleProps).newValue.val = 100 ∧
    handleChange sampleTrack typed1000 sampleProps sampleState
      = ({ dragging := false, left := 100, value := num 1000 }, some 1000) ∧
    sampleProps.min < sampleProps.max ∧
    sampleProps.max < (handleChange sampleTrack typed1000 sampleProps sampleState).1.value.val := by
  have hcalc : calcValue sampleTrack (some typed1000)
        { sampleState with dragging := true, value := { val := 1000, isString := true } }
        sampleProps = { left := 100, newValue := num 100 } := by
    simp [calcValue, calcValueRaw, clamp, typed1000, sampleProps, sampleState, num]
    norm_num
  have hchange : handleChange sampleTrack typed1000 sampleProps sampleState
      = ({ dragging := false, left := 100, value := num 1000 }, some 1000) := by
    have hst : ({ ({ sampleState with value := { val := typed1000.targetValue, isString := true } }
        : State) with dragging := true } : State)
        = { sampleState with dragging := true, value := { val := 1000, isString := true } } :=
      rfl
    simp only [handleChange, updatePosition, updatePositionUpdater, hst, hcalc]
    simp [typed1000, sampleProps, sampleState, num, Value.strictEq]
  refine ⟨by rw [hcalc]; rfl, hchange, by simp [sampleProps], ?_⟩
  rw [hchange]
  simp only [sampleProps, num]
  norm_num

end Slider
